import Mathlib

/-!
A shallow embedding of the FlatZinc presolver core (`src/flatzinc/presolve.cc`).

Variables and constraints are kept in arenas (`List`s) and referenced by
index, mirroring the pointer graph of the C++ model.  Every rewrite rule is
translated line by line from `presolve.cc`.  The model IR itself
(`model.h` / `model.cc`: `Domain`, `Argument`, `IntegerVariable`,
`Constraint` and their helper methods) is not part of the sources, only its
callers are; those helpers are modelled from the specification and each such
definition carries a doc comment starting with `Modelled from the spec:`.

Machine integers (`int64`) are embedded as `Int`; the sentinel values
`kint64max` / `kint64min` appear explicitly wherever the source compares
against them, and every arithmetic step the source guards against overflow
is reproduced with the same guard.
-/

set_option maxRecDepth 100000
set_option maxHeartbeats 1000000

namespace FzPresolve

/-- `kint64max` from the C++ sources: the largest `int64`, used by the model
as the +infinity sentinel. -/
def kint64max : Int := 9223372036854775807

/-- `kint64min` from the C++ sources: the smallest `int64`, used by the model
as the -infinity sentinel. -/
def kint64min : Int := -9223372036854775808

/-- `std::string::resize(size() - n)` on an ASCII tag: drop the last `n`
characters. -/
def strDropRight (s : String) (n : Nat) : String :=
  ⟨s.data.take (s.data.length - n)⟩

/-- `std::string::substr(size() - n)` on an ASCII tag: the last `n`
characters. -/
def strTakeRight (s : String) (n : Nat) : String :=
  ⟨s.data.drop (s.data.length - n)⟩

/-- `HasSuffixString(s, t)` from the C++ string utilities. -/
def strEndsWith (s t : String) : Bool :=
  s.data.length ≥ t.data.length && strTakeRight s t.data.length = t

/-- `HasPrefixString(s, t)` from the C++ string utilities. -/
def strStartsWith (s t : String) : Bool :=
  s.data.take t.data.length = t.data

/-- `std::string::erase(pos, len)` on an ASCII tag. -/
def strErase (s : String) (pos len : Nat) : String :=
  ⟨s.data.take pos ++ s.data.drop (pos + len)⟩

/-- Lookup in an association list; stands for `hash_map` lookup
(`FindOrDie` / `FindPtrOrNull` / `ContainsKey`). -/
def mapFind [DecidableEq κ] : List (κ × α) → κ → Option α
  | [], _ => none
  | (k, v) :: rest, key => if k = key then some v else mapFind rest key

/-- `map[k] = v` on a `hash_map`: replace the binding if the key is present,
append it otherwise. -/
def mapInsert [DecidableEq κ] : List (κ × α) → κ → α → List (κ × α)
  | [], key, v => [(key, v)]
  | (k, w) :: rest, key, v =>
      if k = key then (k, v) :: rest else (k, w) :: mapInsert rest key v

/-- `ContainsKey(map, k)`. -/
def containsKey [DecidableEq κ] (m : List (κ × α)) (key : κ) : Bool :=
  (mapFind m key).isSome

/-- Insertion into a `hash_set` held as a list (no duplicates). -/
def setInsert (s : List Nat) (x : Nat) : List Nat :=
  if s.contains x then s else s ++ [x]

/-- Modelled from the spec: a domain is "either an interval (two bounds,
possibly infinite sentinels) or an explicit sorted set of integers".  As in
the model IR, `is_interval = true` with `values = [lo, hi]` is the interval
and `values = []` the unbounded interval; `is_interval = false` keeps the
explicit value list. -/
structure Domain where
  is_interval : Bool
  values : List Int
deriving Repr, DecidableEq

instance : Inhabited Domain := ⟨⟨true, []⟩⟩

/-- Modelled from the spec: the minimum of a domain, with the -infinity
sentinel for an unbounded interval. -/
def Domain.Min (d : Domain) : Int :=
  match d.values with
  | [] => kint64min
  | lo :: _ => lo

/-- Modelled from the spec: the maximum of a domain, with the +infinity
sentinel for an unbounded interval.  For an interval the last stored value
is the upper bound; for a set it is the largest element. -/
def Domain.Max (d : Domain) : Int :=
  match d.values.getLast? with
  | none => kint64max
  | some hi => hi

/-- Modelled from the spec: domain membership. -/
def Domain.Contains (d : Domain) (v : Int) : Bool :=
  if d.is_interval then decide (d.Min ≤ v) && decide (v ≤ d.Max)
  else d.values.contains v

/-- Modelled from the spec: "a domain whose min equals its max" is fixed. -/
def Domain.HasOneValue (d : Domain) : Bool :=
  decide (d.Min = d.Max)

/-- Modelled from the spec: intersect with `[lo, hi]`, yielding the tightest
expressible representation (an interval stays an interval, a value set is
filtered).  An empty result is recorded but not signalled. -/
def Domain.IntersectWithInterval (d : Domain) (lo hi : Int) : Domain :=
  if d.is_interval then
    { is_interval := true, values := [max d.Min lo, min d.Max hi] }
  else
    { is_interval := false,
      values := d.values.filter (fun v => decide (lo ≤ v) && decide (v ≤ hi)) }

/-- Modelled from the spec: intersect with an explicit list of values; the
result is the explicit set of the listed values that the domain contains,
in list order (the element rules pass their arrays already sorted). -/
def Domain.IntersectWithListOfIntegers (d : Domain) (xs : List Int) : Domain :=
  { is_interval := false, values := xs.filter (fun v => d.Contains v) }

/-- Modelled from the spec: intersect with another domain (tightest
representation; interval against interval stays an interval). -/
def Domain.IntersectWithDomain (d e : Domain) : Domain :=
  if e.is_interval then d.IntersectWithInterval e.Min e.Max
  else d.IntersectWithListOfIntegers e.values

/-- The argument kinds of the model IR (`Argument::Type`). -/
inductive ArgType where
  | INT_VALUE
  | INT_INTERVAL
  | INT_LIST
  | INT_VAR_REF
  | INT_VAR_REF_ARRAY
deriving Repr, DecidableEq

/-- An `Argument` of a constraint, mirroring the C++ struct: a type tag plus
a vector of integer values and a vector of variable indices (only one of
which is meaningful for a given tag). -/
structure Argument where
  type : ArgType
  values : List Int
  vars : List Nat
deriving Repr, DecidableEq

instance : Inhabited Argument := ⟨⟨ArgType.INT_VALUE, [], []⟩⟩

/-- `Argument::IntegerValue(v)`. -/
def Argument.IntegerValue (v : Int) : Argument :=
  { type := ArgType.INT_VALUE, values := [v], vars := [] }

/-- `Argument::IntegerList(values)`. -/
def Argument.IntegerList (vs : List Int) : Argument :=
  { type := ArgType.INT_LIST, values := vs, vars := [] }

/-- `Argument::IntVarRef(var)`. -/
def Argument.IntVarRef (v : Nat) : Argument :=
  { type := ArgType.INT_VAR_REF, values := [], vars := [v] }

/-- `Argument::IntVarRefArray(vars)`. -/
def Argument.IntVarRefArray (vs : List Nat) : Argument :=
  { type := ArgType.INT_VAR_REF_ARRAY, values := [], vars := vs }

/-- `Argument::Var()`: the single referenced variable. -/
def Argument.Var (a : Argument) : Nat := a.vars.headD 0

/-- Modelled from the spec: `is_variable` holds for a single variable
reference. -/
def Argument.IsVariable (a : Argument) : Bool :=
  a.type = ArgType.INT_VAR_REF

/-- An `IntegerVariable` of the model IR.  The diagnostic name is omitted;
`defining_constraint` is an optional constraint index. -/
structure IntegerVariable where
  domain : Domain
  active : Bool
  temporary : Bool
  defining_constraint : Option Nat
deriving Repr, DecidableEq

instance : Inhabited IntegerVariable := ⟨⟨default, true, false, none⟩⟩

/-- A `Constraint` of the model IR: tag, argument vector, activity flag,
optional target variable, and the two rule-guard flags. -/
structure Constraint where
  type : String
  arguments : List Argument
  active : Bool
  target_variable : Option Nat
  presolve_propagation_done : Bool
  strong_propagation : Bool
deriving Repr, DecidableEq

instance : Inhabited Constraint :=
  ⟨⟨"", [], false, none, false, false⟩⟩

/-- An affine index mapping `var = coefficient * variable + offset`,
recorded by `PresolveStoreMapping` together with its origin constraint. -/
structure AffineMapping where
  var : Nat
  coefficient : Int
  offset : Int
  constraint : Nat
deriving Repr, DecidableEq

/-- A 2d index mapping `var = coefficient * variable1 + variable2 + offset`
with its origin constraint. -/
structure Array2DIndexMapping where
  variable1 : Nat
  coefficient : Int
  variable2 : Nat
  offset : Int
  constraint : Nat
deriving Repr, DecidableEq

/-- The state a `Presolver` works on: the model (variable arena plus
constraint list) and the auxiliary maps of the presolver object.  Search
annotations and output specifications are outside the embedded fragment
(no embedded rule reads them; `SubstituteEverywhere` rewrites them in the
source, and the theorems below only exercise runs with an empty
substitution map). -/
structure State where
  vars : List IntegerVariable
  constraints : List Constraint
  difference_map : List (Nat × (Nat × Nat))
  affine_map : List (Nat × AffineMapping)
  array2d_index_map : List (Nat × Array2DIndexMapping)
  var_representative_map : List (Nat × Nat)
  var_to_constraints : List (Nat × List Nat)
deriving Repr, DecidableEq

/-- Dereference a variable index. -/
def State.getVar (st : State) (v : Nat) : IntegerVariable := st.vars.getD v default

/-- Mutate a variable in place. -/
def State.updateVar (st : State) (v : Nat) (f : IntegerVariable → IntegerVariable) : State :=
  { st with vars := st.vars.set v (f (st.getVar v)) }

/-- Dereference a constraint index. -/
def State.getCt (st : State) (c : Nat) : Constraint :=
  st.constraints.getD c default

/-- Mutate a constraint in place. -/
def State.updateCt (st : State) (c : Nat) (f : Constraint → Constraint) : State :=
  { st with constraints := st.constraints.set c (f (st.getCt c)) }

/-- `ct->arguments[i]`. -/
def Constraint.argD (ct : Constraint) (i : Nat) : Argument :=
  ct.arguments.getD i default

/-- Replace `ct->arguments[i]`. -/
def Constraint.setArg (ct : Constraint) (i : Nat) (a : Argument) : Constraint :=
  { ct with arguments := ct.arguments.set i a }

/-- Modelled from the spec: `has_one_value` is "true when the argument
resolves to a single integer, whether as a constant or a variable with a
singleton domain". -/
def argHasOneValue (st : State) (a : Argument) : Bool :=
  a.type = ArgType.INT_VALUE ||
  (a.type = ArgType.INT_VAR_REF && (st.getVar a.Var).domain.HasOneValue)

/-- Modelled from the spec: `value` is "the integer in that case" — the
literal for a constant argument, the domain's single value for a fixed
variable. -/
def argValue (st : State) (a : Argument) : Int :=
  match a.type with
  | ArgType.INT_VALUE => a.values.headD 0
  | ArgType.INT_VAR_REF => (st.getVar a.Var).domain.Min
  | _ => 0

/-- Modelled from the spec: `Constraint::RemoveTargetVariable` strips the
target designation, restoring the invariant that a `defining_constraint`
back-pointer exists exactly for the target of the constraint. -/
def removeTargetVariable (st : State) (c : Nat) : State :=
  match (st.getCt c).target_variable with
  | none => st
  | some v =>
      let st := st.updateVar v (fun x => { x with defining_constraint := none })
      st.updateCt c (fun ct => { ct with target_variable := none })

/-- Modelled from the spec: `Constraint::MarkAsInactive` — the constraint is
"ignored by all subsequent passes"; the target designation is stripped so
the defining-constraint invariant is kept. -/
def markAsInactive (st : State) (c : Nat) : State :=
  let st := removeTargetVariable st c
  st.updateCt c (fun ct => { ct with active := false })

/-- Modelled from the spec: `Constraint::SetAsFalse` "marks the constraint
as an unsatisfiable constant". -/
def setAsFalse (st : State) (c : Nat) : State :=
  let st := removeTargetVariable st c
  st.updateCt c (fun ct =>
    { ct with type := "false_constraint", arguments := [] })

/-- Modelled from the spec: `Constraint::RemoveArg(i)` deletes argument `i`. -/
def Constraint.RemoveArg (ct : Constraint) (i : Nat) : Constraint :=
  { ct with arguments := ct.arguments.take i ++ ct.arguments.drop (i + 1) }

/-- `Presolver::IntersectDomainWith(arg, domain)` (presolve.cc): dispatch on
the argument kind; the `LOG(FATAL)` default leaves the domain unchanged
here (that branch is a caller contract violation and never reachable in the
theorems below). -/
def intersectDomainWith (st : State) (a : Argument) (d : Domain) : Domain :=
  match a.type with
  | ArgType.INT_VALUE =>
      d.IntersectWithInterval (argValue st a) (argValue st a)
  | ArgType.INT_INTERVAL =>
      d.IntersectWithInterval (a.values.getD 0 0) (a.values.getD 1 0)
  | ArgType.INT_LIST => d.IntersectWithListOfIntegers a.values
  | _ => d

/-! ### Rule: Unreify (presolve.cc lines 354-402) -/

/-- The inverse-operation table at the end of `Presolver::Unreify`: an
if/else chain with no final default, so an unrecognised two-letter suffix
is simply dropped. -/
def inverseOpSuffix (op : String) : String :=
  if op = "ne" then "eq"
  else if op = "eq" then "ne"
  else if op = "le" then "gt"
  else if op = "lt" then "ge"
  else if op = "ge" then "lt"
  else if op = "gt" then "le"
  else ""

/-- `Presolver::Unreify`: a reified constraint whose last argument is fixed
loses the `_reif` suffix and the last argument; with the boolean fixed to 1
the relation is kept, otherwise it is replaced following the source's
branch structure (the `set_in`/`set_not_in` branch strips the two
characters `in` and appends `not_in`; the generic branch strips the
two-letter operation and appends its inverse). -/
def unreify (st : State) (c : Nat) : State × Bool :=
  let ct := st.getCt c
  let lastArg := ct.argD (ct.arguments.length - 1)
  if !argHasOneValue st lastArg then (st, false)
  else
    let st := st.updateCt c (fun ct => { ct with type := strDropRight ct.type 5 })
    let st := removeTargetVariable st c
    let ty := (st.getCt c).type
    if argValue st lastArg = 1 then
      let st := removeTargetVariable st c
      (st.updateCt c (fun ct => { ct with arguments := ct.arguments.dropLast }),
       true)
    else if ty = "set_in" || ty = "set_not_in" then
      let st := removeTargetVariable st c
      (st.updateCt c (fun ct =>
        { ct with arguments := ct.arguments.dropLast,
                  type := strDropRight ct.type 2 ++ "not_in" }), true)
    else
      let st := removeTargetVariable st c
      (st.updateCt c (fun ct =>
        { ct with arguments := ct.arguments.dropLast,
                  type := strDropRight ct.type 2 ++
                          inverseOpSuffix (strTakeRight ct.type 2) }), true)

/-! ### Substitution support (presolve.cc lines 2276-2322) -/

/-- First loop of `Presolver::FindRepresentativeOfVar`: walk parent pointers
to the root.  The parent map is acyclic in every reachable state, so a fuel
of one more than the map size always suffices. -/
def findRepTop (m : List (Nat × Nat)) : Nat → Nat → Nat
  | 0, v => v
  | fuel + 1, v =>
      match mapFind m v with
      | none => v
      | some p => if p = v then v else findRepTop m fuel p

/-- Second loop of `Presolver::FindRepresentativeOfVar`: retarget every
entry on the walked path to the root. -/
def compressPath (root : Nat) : Nat → List (Nat × Nat) → Nat → List (Nat × Nat)
  | 0, m, _ => m
  | fuel + 1, m, start =>
      if start = root then m
      else
        match mapFind m start with
        | none => m
        | some parent => compressPath root fuel (mapInsert m start root) parent

/-- `Presolver::FindRepresentativeOfVar`: find the union–find root of `v`
and compress the path, returning the updated state and the root's final
binding. -/
def findRepresentativeOfVar (st : State) (v : Nat) : State × Nat :=
  let fuel := st.var_representative_map.length + 1
  let root := findRepTop st.var_representative_map fuel v
  let m := compressPath root fuel st.var_representative_map v
  ({ st with var_representative_map := m }, (mapFind m root).getD root)

/-- Modelled from the spec: `IntegerVariable::Merge` — the surviving
variable "absorbs `from`'s name, domain (intersected), and defining
constraint if it had none" (the diagnostic name is not part of this
embedding). -/
def mergeVar (st : State) (t : Nat) (fromDomain : Domain)
    (fromDefining : Option Nat) : State :=
  st.updateVar t (fun x =>
    { x with domain := x.domain.IntersectWithDomain fromDomain,
             defining_constraint :=
               match x.defining_constraint with
               | none => fromDefining
               | some d => some d })

/-- The target-breaking step of `AddVariableSubstition` (lines 2292-2297):
when both resolved sides carry defining constraints, the one on `from`
loses its target. -/
def addSubBreak (st : State) (f t : Nat) : State :=
  if (st.getVar f).defining_constraint.isSome &&
     (st.getVar t).defining_constraint.isSome then
    match (st.getVar f).defining_constraint with
    | some dc => removeTargetVariable st dc
    | none => st
  else st

/-- The merge-and-deactivate steps of `AddVariableSubstition` (lines
2298-2300) after `addSubBreak`: `to` absorbs `from` via `Merge`, then
`from` is deactivated. -/
def addSubMerged (st : State) (f t : Nat) : State :=
  let st1 := addSubBreak st f t
  let st2 := mergeVar st1 t (st1.getVar f).domain
    (st1.getVar f).defining_constraint
  st2.updateVar f (fun x => { x with active := false })

/-- `Presolver::AddVariableSubstition`: resolve both sides to their
representatives, prefer eliminating a temporary (swap when the resolved
`to` is temporary), and if the two differ break a double target, merge
`from` into `to`, deactivate `from` and record `representative[from] = to`
(the last three steps are `addSubBreak` / `addSubMerged` above). -/
def addVariableSubstition (st : State) (from0 to0 : Nat) : State :=
  let p := findRepresentativeOfVar st from0
  let q := findRepresentativeOfVar p.1 to0
  let st := q.1
  let ft := if (st.getVar q.2).temporary then (q.2, p.2) else (p.2, q.2)
  let f := ft.1
  let t := ft.2
  if f ≠ t then
    let st := addSubMerged st f t
    { st with var_representative_map :=
        mapInsert st.var_representative_map f t }
  else st

/-! ### Rule: PresolveIntEq (presolve.cc lines 162-211) -/

/-- `Presolver::PresolveIntEq`, translated rule by rule.  Rule 1 consults
`difference_map_`; rules 2/4 fix a variable against a constant; rule 3
records a substitution; rule 5 deactivates a trivially true constant
equality but reports no modification. -/
def presolveIntEq (st : State) (c : Nat) : State × Bool :=
  let ct := st.getCt c
  let a0 := ct.argD 0
  let a1 := ct.argD 1
  if a0.type = ArgType.INT_VAR_REF && a1.type = ArgType.INT_VALUE &&
     decide (argValue st a1 = 0) && containsKey st.difference_map a0.Var then
    -- Rule 1: x known to be a difference; rewrite int_eq(x, 0).
    let st := st.updateVar a0.Var (fun x =>
      { x with domain := x.domain.IntersectWithInterval 0 0 })
    let diff := (mapFind st.difference_map a0.Var).getD (0, 0)
    let st := st.updateCt c (fun ct =>
      let ct := ct.setArg 0 { a0 with vars := (a0.vars.set 0 diff.1) }
      ct.setArg 1 { type := ArgType.INT_VAR_REF, values := [],
                    vars := a1.vars ++ [diff.2] })
    (st, true)
  else if a0.IsVariable then
    if argHasOneValue st a1 then
      -- Rule 2.
      let value := argValue st a1
      let st := st.updateVar a0.Var (fun x =>
        { x with domain := x.domain.IntersectWithInterval value value })
      (markAsInactive st c, true)
    else if a1.IsVariable then
      -- Rule 3.
      let st := markAsInactive st c
      (addVariableSubstition st a0.Var a1.Var, true)
    else (st, false)
  else if argHasOneValue st a0 then
    let value := argValue st a0
    if a1.IsVariable then
      -- Rule 4.
      let st := st.updateVar a1.Var (fun x =>
        { x with domain := x.domain.IntersectWithInterval value value })
      (markAsInactive st c, true)
    else if argHasOneValue st a1 && decide (value = argValue st a1) then
      -- Rule 5: no-op, removing.
      (markAsInactive st c, false)
    else (st, false)
  else (st, false)

/-! ### Rule: PresolveIntDiv (presolve.cc lines 458-478) -/

/-- `Presolver::PresolveIntDiv`: with both operands fixed, the divisor
nonzero and the result compatible with the target's domain, fix the target
to the (toward-zero, as in C++) quotient.  The `c2 = 0` case fails the
guard and falls through to `return false`. -/
def presolveIntDiv (st : State) (c : Nat) : State × Bool :=
  let ct := st.getCt c
  let a0 := ct.argD 0
  let a1 := ct.argD 1
  let a2 := ct.argD 2
  if argHasOneValue st a0 && argHasOneValue st a1 && a2.IsVariable &&
     !ct.presolve_propagation_done && decide (argValue st a1 ≠ 0) then
    let value := Int.tdiv (argValue st a0) (argValue st a1)
    let st := st.updateCt c (fun ct =>
      { ct with presolve_propagation_done := true })
    if (st.getVar a2.Var).domain.Contains value then
      let st := st.updateVar a2.Var (fun x =>
        { x with domain := x.domain.IntersectWithInterval value value })
      (markAsInactive st c, true)
    else (st, false)
  else (st, false)

/-! ### Rules: PresolveIntLinGt / PresolveIntLinLt (presolve.cc 702-729) -/

/-- `Presolver::PresolveIntLinGt`: rewrite `int_lin_gt(a, x, c)` into
`int_lin_ge(a, x, c + 1)` unless `c` is the `kint64max` sentinel (in which
case the source leaves the constraint untouched and returns false). -/
def presolveIntLinGt (st : State) (c : Nat) : State × Bool :=
  let ct := st.getCt c
  if decide (argValue st (ct.argD 2) ≠ kint64max) then
    let st := st.updateCt c (fun ct =>
      let a2 := ct.argD 2
      let ct := ct.setArg 2 { a2 with values :=
        match a2.values with
        | v :: rest => (v + 1) :: rest
        | [] => [] }
      { ct with type := "int_lin_ge" })
    (st, true)
  else (st, false)

/-- `Presolver::PresolveIntLinLt`: rewrite `int_lin_lt(a, x, c)` into
`int_lin_le(a, x, c - 1)` unless `c` is the `kint64min` sentinel. -/
def presolveIntLinLt (st : State) (c : Nat) : State × Bool :=
  let ct := st.getCt c
  if decide (argValue st (ct.argD 2) ≠ kint64min) then
    let st := st.updateCt c (fun ct =>
      let a2 := ct.argD 2
      let ct := ct.setArg 2 { a2 with values :=
        match a2.values with
        | v :: rest => (v - 1) :: rest
        | [] => [] }
      { ct with type := "int_lin_le" })
    (st, true)
  else (st, false)

/-! ### First-pass scan (presolve.cc lines 2121-2212) -/

/-- `Presolver::StoreDifference`: an `int_lin_eq` with right-hand side 0 and
coefficients `[1, -1, 1]` or `[-1, 1, -1]` records, for a variable vector
`[a, b, c]`, the bindings `difference_map[a] = (c, b)` and
`difference_map[c] = (a, b)`. -/
def storeDifference (st : State) (c : Nat) : State :=
  let ct := st.getCt c
  if decide (argValue st (ct.argD 2) = 0) &&
     decide ((ct.argD 0).values.length = 3) then
    let cs := (ct.argD 0).values
    if (decide (cs.getD 0 0 = 1) && decide (cs.getD 1 0 = -1) &&
        decide (cs.getD 2 0 = 1)) ||
       (decide (cs.getD 0 0 = -1) && decide (cs.getD 1 0 = 1) &&
        decide (cs.getD 2 0 = -1)) then
      let vs := (ct.argD 1).vars
      let dm := mapInsert st.difference_map (vs.getD 0 0) (vs.getD 2 0, vs.getD 1 0)
      let dm := mapInsert dm (vs.getD 2 0) (vs.getD 0 0, vs.getD 1 0)
      { st with difference_map := dm }
    else st
  else st

/-- `Presolver::FirstPassModelScan`: run `StoreDifference` over every active
`int_lin_eq`.  The second half of the source routine harvests decision
variables from the search annotations, which are outside the embedded IR
and feed no embedded rule. -/
def firstPassModelScan (st : State) : State :=
  (List.range st.constraints.length).foldl
    (fun st c =>
      if (st.getCt c).active && (st.getCt c).type = "int_lin_eq" then
        storeDifference st c
      else st)
    st

/-! ### Rule: PresolveBool2Int (presolve.cc lines 119-132) -/

/-- `Presolver::PresolveBool2Int`: if either side is fixed, retype as
`int_eq`; otherwise record the variable pair as a substitution and
deactivate. -/
def presolveBool2Int (st : State) (c : Nat) : State × Bool :=
  let ct := st.getCt c
  if argHasOneValue st (ct.argD 0) || argHasOneValue st (ct.argD 1) then
    (st.updateCt c (fun ct => { ct with type := "int_eq" }), true)
  else
    let st := markAsInactive st c
    (addVariableSubstition st (ct.argD 1).Var (ct.argD 0).Var, true)

/-! ### Rule: PresolveLinear (presolve.cc lines 982-1088) -/

/-- `Presolver::PresolveLinear`.  Rule 2/3: a linear constraint without
variables is evaluated literally and deactivated, set as false, or (for a
reified form) lowered to a `bool_eq` with the comparison's truth value.
Rule 1: if no coefficient is positive and the target variable is not among
the operands, negate the coefficients and the right-hand side and swap the
comparison direction. -/
def presolveLinear (st : State) (c : Nat) : State × Bool :=
  let ct := st.getCt c
  if (ct.argD 0).values = [] then (st, false)
  else if (ct.argD 1).vars = [] then
    let scalprod := (List.zipWith (· * ·) (ct.argD 0).values
      (ct.argD 1).values).foldl (· + ·) 0
    let rhs := argValue st (ct.argD 2)
    let lower := fun (b : Bool) =>
      (st.updateCt c (fun ct =>
        { ct with type := "bool_eq",
                  arguments := [ct.argD 3,
                    Argument.IntegerValue (if b then 1 else 0)] }), true)
    if ct.type = "int_lin_eq" then
      (if scalprod = rhs then markAsInactive st c else setAsFalse st c, true)
    else if ct.type = "int_lin_le" then
      (if scalprod ≤ rhs then markAsInactive st c else setAsFalse st c, true)
    else if ct.type = "int_lin_ge" then
      (if scalprod ≥ rhs then markAsInactive st c else setAsFalse st c, true)
    else if ct.type = "int_lin_ne" then
      (if scalprod ≠ rhs then markAsInactive st c else setAsFalse st c, true)
    else if ct.type = "int_lin_eq_reif" then lower (decide (scalprod = rhs))
    else if ct.type = "int_lin_ge_reif" then lower (decide (scalprod ≥ rhs))
    else if ct.type = "int_lin_le_reif" then lower (decide (scalprod ≤ rhs))
    else if ct.type = "int_lin_ne_reif" then lower (decide (scalprod ≠ rhs))
    else (st, true)
  else if (ct.argD 0).values.any (fun coef => decide (0 < coef)) then (st, false)
  else if (match ct.target_variable with
           | some tv => (ct.argD 1).vars.contains tv
           | none => false) then (st, false)
  else
    let st := st.updateCt c (fun ct =>
      let a0 := ct.argD 0
      let ct := ct.setArg 0 { a0 with values := a0.values.map (fun x => x * (-1)) }
      let a2 := ct.argD 2
      let ct := ct.setArg 2 { a2 with values :=
        match a2.values with
        | v :: rest => (v * (-1)) :: rest
        | [] => [] }
      { ct with type :=
          if ct.type = "int_lin_le" then "int_lin_ge"
          else if ct.type = "int_lin_lt" then "int_lin_gt"
          else if ct.type = "int_lin_ge" then "int_lin_le"
          else if ct.type = "int_lin_gt" then "int_lin_lt"
          else if ct.type = "int_lin_le_reif" then "int_lin_ge_reif"
          else if ct.type = "int_lin_ge_reif" then "int_lin_le_reif"
          else ct.type })
    (st, true)

/-! ### Rule: RegroupLinear (presolve.cc lines 1093-1128) -/

/-- The distinct elements of a list in order of first occurrence (the
`processed` hash-set walk of `RegroupLinear`). -/
def firstOccurrences (xs : List Nat) : List Nat :=
  xs.foldl (fun acc x => if acc.contains x then acc else acc ++ [x]) []

/-- The summed coefficient of variable `v` (the `coefficients` hash map of
`RegroupLinear`). -/
def coefficientSum (coeffs : List Int) (vs : List Nat) (v : Nat) : Int :=
  (List.zip coeffs vs).foldl
    (fun acc p => if p.2 = v then acc + p.1 else acc) 0

/-- `Presolver::RegroupLinear`: combine repeated variables of a linear
constraint; coefficients sum and zero-coefficient terms are dropped. -/
def regroupLinear (st : State) (c : Nat) : State × Bool :=
  let ct := st.getCt c
  if (ct.argD 1).vars = [] then (st, false)
  else
    let coeffs := (ct.argD 0).values
    let vs := (ct.argD 1).vars
    let originalSize := coeffs.length
    if (firstOccurrences (vs.take originalSize)).length ≠ originalSize then
      let pairs := (firstOccurrences (vs.take originalSize)).filterMap (fun v =>
        let coef := coefficientSum coeffs vs v
        if coef = 0 then none else some (coef, v))
      let st := st.updateCt c (fun ct =>
        let ct := ct.setArg 0 { ct.argD 0 with values := pairs.map Prod.fst }
        ct.setArg 1 { ct.argD 1 with vars := pairs.map Prod.snd })
      (st, true)
    else (st, false)

/-! ### Rule: SimplifyUnaryLinear (presolve.cc lines 735-761) -/

/-- `Presolver::SimplifyUnaryLinear`: `c1 * x OP rhs` with `c1 = 1` or
(`c1 > 0` and `rhs` divisible by `c1`) drops the linear wrapper, leaving
`x OP rhs / c1` under the tag with `_lin` erased. -/
def simplifyUnaryLinear (st : State) (c : Nat) : State × Bool :=
  let ct := st.getCt c
  let coefficient := (ct.argD 0).values.getD 0 0
  let rhs := argValue st (ct.argD 2)
  if decide ((ct.argD 0).values.length = 1) &&
     (decide (coefficient = 1) ||
      (decide (0 < coefficient) && decide (Int.emod rhs coefficient = 0))) then
    let st := st.updateCt c (fun ct =>
      let a0 := ct.argD 0
      let na0 : Argument := { type := ArgType.INT_VAR_REF, values := [],
                              vars := a0.vars ++ [(ct.argD 1).vars.getD 0 0] }
      let ct := ct.setArg 0 na0
      let a1 := ct.argD 1
      let na1 : Argument := { type := ArgType.INT_VALUE,
                              values := a1.values ++ [Int.tdiv rhs coefficient],
                              vars := [] }
      let ct := ct.setArg 1 na1
      let ct := ct.RemoveArg 2
      { ct with type := strErase ct.type 3 4 })
    (st, true)
  else (st, false)

/-! ### Rule: SimplifyBinaryLinear (presolve.cc lines 768-801) -/

/-- `Presolver::SimplifyBinaryLinear`: `x - y` or `-x + y` compared to 0
becomes a binary comparison of the two variables, with `_lin` erased from
the tag. -/
def simplifyBinaryLinear (st : State) (c : Nat) : State × Bool :=
  let ct := st.getCt c
  let rhs := argValue st (ct.argD 2)
  if decide ((ct.argD 0).values.length ≠ 2) || decide (rhs ≠ 0) ||
     decide ((ct.argD 1).vars.length = 0) then (st, false)
  else
    let vs := (ct.argD 1).vars
    let fs : Option (Nat × Nat) :=
      if decide ((ct.argD 0).values.getD 0 0 = 1) &&
         decide ((ct.argD 0).values.getD 1 0 = -1) then
        some (vs.getD 0 0, vs.getD 1 0)
      else if decide ((ct.argD 0).values.getD 0 0 = -1) &&
              decide ((ct.argD 0).values.getD 1 0 = 1) then
        some (vs.getD 1 0, vs.getD 0 0)
      else none
    match fs with
    | none => (st, false)
    | some p =>
        let st := st.updateCt c (fun ct =>
          let a0 := ct.argD 0
          let na0 : Argument := { type := ArgType.INT_VAR_REF, values := [],
                                  vars := a0.vars ++ [p.1] }
          let ct := ct.setArg 0 na0
          let a1 := ct.argD 1
          let ct := ct.setArg 1 { a1 with type := ArgType.INT_VAR_REF,
                                          vars := [p.2] }
          let ct := ct.RemoveArg 2
          { ct with type := strErase ct.type 3 4 })
        (st, true)

/-! ### Rule: PropagatePositiveLinear (presolve.cc lines 1140-1189) -/

/-- Rule 1 of `PropagatePositiveLinear`: for each positively weighted
variable, tighten its upper bound to `rhs / coef` when that improves it. -/
def propagatePositiveLinearLoop (rhs : Int) (st : State)
    (pairs : List (Int × Nat)) : State × Bool :=
  pairs.foldl
    (fun (acc : State × Bool) p =>
      if decide (0 < p.1) then
        let bound := Int.tdiv rhs p.1
        if decide (bound < (acc.1.getVar p.2).domain.Max) then
          (acc.1.updateVar p.2 (fun x =>
            { x with domain := x.domain.IntersectWithInterval 0 bound }), true)
        else acc
      else acc)
    (st, false)

/-- `Presolver::PropagatePositiveLinear`: with a nonnegative right-hand
side, nonnegative coefficients and nonnegative variable minima, bound the
variables (rule 1 for `eq`/`le`, rule 2 for a unary `ge`).  The
once-only flag is raised on the fall-through path exactly as in the
source. -/
def propagatePositiveLinear (st : State) (c : Nat) : State × Bool :=
  let ct := st.getCt c
  let rhs := argValue st (ct.argD 2)
  if ct.presolve_propagation_done || decide (rhs < 0) ||
     decide ((ct.argD 1).vars = []) then (st, false)
  else if (ct.argD 0).values.any (fun coef => decide (coef < 0)) then (st, false)
  else if (ct.argD 1).vars.any
      (fun v => decide ((st.getVar v).domain.Min < 0)) then (st, false)
  else
    let r :=
      if ct.type ≠ "int_lin_ge" then
        propagatePositiveLinearLoop rhs st
          (List.zip (ct.argD 0).values (ct.argD 1).vars)
      else if decide ((ct.argD 0).values.length = 1) &&
              decide (0 < (ct.argD 0).values.getD 0 0) then
        let coef := (ct.argD 0).values.getD 0 0
        let v := (ct.argD 1).vars.getD 0 0
        let bound := Int.tdiv (rhs + coef - 1) coef
        if decide ((st.getVar v).domain.Min < bound) then
          let st := st.updateVar v (fun x =>
            { x with domain := x.domain.IntersectWithInterval bound kint64max })
          (markAsInactive st c, true)
        else (st, false)
      else (st, false)
    (r.1.updateCt c (fun ct => { ct with presolve_propagation_done := true }),
     r.2)

/-! ### Rule: CreateLinearTarget (presolve.cc lines 881-898) -/

/-- One iteration of the `{0, 1}` loop of `CreateLinearTarget`. -/
def createLinearTargetAt (st : State) (c : Nat) (var_index : Nat) :
    Option State :=
  let ct := st.getCt c
  let v := (ct.argD 1).vars.getD var_index 0
  if decide ((ct.argD 0).values.length = 2) &&
     decide ((ct.argD 0).values.getD var_index 0 = -1) &&
     ((st.getVar v).defining_constraint = none) &&
     !(st.getVar v).domain.HasOneValue then
    let st := st.updateVar v (fun x => { x with defining_constraint := some c })
    some (st.updateCt c (fun ct => { ct with target_variable := some v }))
  else none

/-- `Presolver::CreateLinearTarget`: on a two-term linear equality with a
`-1` coefficient, mark the corresponding variable as the target if the
constraint has none and the variable has no defining constraint and is not
fixed. -/
def createLinearTarget (st : State) (c : Nat) : State × Bool :=
  if (st.getCt c).target_variable ≠ none then (st, false)
  else
    match createLinearTargetAt st c 0 with
    | some st => (st, true)
    | none =>
        match createLinearTargetAt st c 1 with
        | some st => (st, true)
        | none => (st, false)

/-! ### Rule: PresolveStoreMapping (presolve.cc lines 1196-1264) -/

/-- `Presolver::PresolveStoreMapping`: recognize the linear equations that
define an affine index (`-x + coef * y = rhs`, two terms) or a 2d index
(`-x + coef * y + z = rhs`, three terms) of an element constraint, and
record them in `affine_map_` / `array2d_index_map_`. -/
def presolveStoreMapping (st : State) (c : Nat) : State × Bool :=
  let ct := st.getCt c
  let coeffs := (ct.argD 0).values
  let vs := (ct.argD 1).vars
  let rhs := argValue st (ct.argD 2)
  if vs = [] then (st, false)
  else if decide (coeffs.length = 2) &&
     (some (vs.getD 0 0) = ct.target_variable) &&
     decide (coeffs.getD 0 0 = -1) &&
     !containsKey st.affine_map (vs.getD 0 0) && ct.strong_propagation then
    let mp : AffineMapping := ⟨vs.getD 1 0, coeffs.getD 1 0, -rhs, c⟩
    ({ st with affine_map := mapInsert st.affine_map (vs.getD 0 0) mp }, true)
  else if decide (coeffs.length = 2) &&
     (some (vs.getD 1 0) = ct.target_variable) &&
     decide (coeffs.getD 1 0 = -1) &&
     !containsKey st.affine_map (vs.getD 1 0) then
    let mp : AffineMapping := ⟨vs.getD 0 0, coeffs.getD 0 0, -rhs, c⟩
    ({ st with affine_map := mapInsert st.affine_map (vs.getD 1 0) mp }, true)
  else if decide (coeffs.length = 3) &&
     (some (vs.getD 0 0) = ct.target_variable) &&
     decide (coeffs.getD 0 0 = -1) && decide (coeffs.getD 2 0 = 1) &&
     !containsKey st.array2d_index_map (vs.getD 0 0) &&
     ct.strong_propagation then
    let mp : Array2DIndexMapping := ⟨vs.getD 1 0, coeffs.getD 1 0, vs.getD 2 0, -rhs, c⟩
    ({ st with array2d_index_map :=
                 mapInsert st.array2d_index_map (vs.getD 0 0) mp }, true)
  else if decide (coeffs.length = 3) &&
     (some (vs.getD 0 0) = ct.target_variable) &&
     decide (coeffs.getD 0 0 = -1) && decide (coeffs.getD 1 0 = 1) &&
     !containsKey st.array2d_index_map (vs.getD 0 0) &&
     ct.strong_propagation then
    let mp : Array2DIndexMapping := ⟨vs.getD 2 0, coeffs.getD 2 0, vs.getD 1 0, -rhs, c⟩
    ({ st with array2d_index_map :=
                 mapInsert st.array2d_index_map (vs.getD 0 0) mp }, true)
  else if decide (coeffs.length = 3) &&
     (some (vs.getD 2 0) = ct.target_variable) &&
     decide (coeffs.getD 2 0 = -1) && decide (coeffs.getD 1 0 = 1) &&
     !containsKey st.array2d_index_map (vs.getD 2 0) then
    let mp : Array2DIndexMapping := ⟨vs.getD 0 0, coeffs.getD 0 0, vs.getD 1 0, -rhs, c⟩
    ({ st with array2d_index_map :=
                 mapInsert st.array2d_index_map (vs.getD 2 0) mp }, true)
  else if decide (coeffs.length = 3) &&
     (some (vs.getD 2 0) = ct.target_variable) &&
     decide (coeffs.getD 2 0 = -1) && decide (coeffs.getD 0 0 = 1) &&
     !containsKey st.array2d_index_map (vs.getD 2 0) then
    let mp : Array2DIndexMapping := ⟨vs.getD 1 0, coeffs.getD 1 0, vs.getD 0 0, -rhs, c⟩
    ({ st with array2d_index_map :=
                 mapInsert st.array2d_index_map (vs.getD 2 0) mp }, true)
  else (st, false)

/-! ### Rule: PresolveSimplifyElement (presolve.cc lines 1295-1425) -/

/-- `IsIncreasingContiguous` (presolve.cc lines 1268-1275). -/
def isIncreasingContiguous : List Int → Bool
  | [] => true
  | [_] => true
  | a :: b :: rest => decide (b = a + 1) && isIncreasingContiguous (b :: rest)

/-- The sampling loop of the affine branch of `PresolveSimplifyElement`:
walk `i = 1, 2, ...` (the fuel counts the remaining iterations up to the
affine variable's maximum), collecting `values[i * coef + offset - 1]`;
`none` reproduces the source's `return false` on a negative position, and
a position beyond the array ends the loop.  The source compares the
position with `>` against the size before reading, so position `size`
reads one past the end; `getD` renders that read as 0. -/
def sampleAffineValues (values : List Int) (coef offset : Int) :
    Nat → Int → List Int → Option (List Int)
  | 0, _, acc => some acc
  | fuel + 1, i, acc =>
      let index := i * coef + offset - 1
      if decide (index < 0) then none
      else if decide ((values.length : Int) < index) then some acc
      else sampleAffineValues values coef offset fuel (i + 1)
        (acc ++ [values.getD index.toNat 0])

/-- The `affine_map_` region of `PresolveSimplifyElement` (rule 1): either
translate the array in place when the affine variable starts at 0 with
coefficient 1 (shifting the index variable's interval bounds down by
`offset - 1` and rewriting the affine constraint's right-hand side to -1),
or rebuild the array by sampling along the affine map, retarget the
constraint onto the affine variable, and deactivate the old index variable
and the affine constraint.  `none` means the region fell through. -/
def simplifyElementAffine (st : State) (c : Nat) (index_var : Nat) :
    Option (State × Bool) :=
  match mapFind st.affine_map index_var with
  | none => none
  | some mapping =>
      let domain := (st.getVar mapping.var).domain
      if domain.is_interval && domain.values = [] then some (st, false)
      else if decide (domain.values.getD 0 0 = 0) &&
         decide (mapping.coefficient = 1) && decide (1 < mapping.offset) &&
         (st.getVar index_var).domain.is_interval then
        let offset := mapping.offset - 1
        let st := st.updateCt c (fun ct =>
          ct.setArg 1 { ct.argD 1 with
                        values := (ct.argD 1).values.drop offset.toNat })
        let st := st.updateCt mapping.constraint (fun ct2 =>
          ct2.setArg 2 { ct2.argD 2 with
                        values := match (ct2.argD 2).values with
                                  | _ :: rest => (-1) :: rest
                                  | [] => [] })
        let am := mapInsert st.affine_map index_var { mapping with offset := 1 }
        let st := { st with affine_map := am }
        let st := st.updateVar index_var (fun x =>
          { x with domain := { x.domain with
              values := match x.domain.values with
                        | a :: b :: rest => (a - offset) :: (b - offset) :: rest
                        | other => other } })
        some (st, true)
      else if decide (0 < mapping.offset + mapping.coefficient) &&
              decide (0 < domain.values.getD 0 0) then
        match sampleAffineValues ((st.getCt c).argD 1).values
            mapping.coefficient mapping.offset
            (domain.values.getLastD 0).toNat 1 [] with
        | none => some (st, false)
        | some new_values =>
            let st := st.updateCt c (fun ct =>
              ct.setArg 0 { ct.argD 0 with
                            vars := (ct.argD 0).vars.set 0 mapping.var })
            let st := st.updateVar mapping.var (fun x =>
              { x with domain :=
                  x.domain.IntersectWithInterval 1 new_values.length })
            let st := st.updateCt c (fun ct =>
              let ct := ct.setArg 1 { ct.argD 1 with values := new_values }
              let ct :=
                if new_values.length = 1 then
                  ct.setArg 1 { ct.argD 1 with type := ArgType.INT_VALUE }
                else ct
              { ct with presolve_propagation_done := false })
            let st := markAsInactive st mapping.constraint
            let st := st.updateVar index_var (fun x =>
              { x with active := false })
            some (st, true)
      else none

/-- The `array2d_index_map_` region of `PresolveSimplifyElement` (rule 2):
rewrite the element constraint into its 2d form — two index variables, an
appended coefficient pair and base offset — and deactivate the old index
variable and the mapping's constraint. -/
def simplifyElementArray2d (st : State) (c : Nat) (index_var : Nat) :
    Option (State × Bool) :=
  match mapFind st.array2d_index_map index_var with
  | none => none
  | some mapping =>
      let st := st.updateCt c (fun ct =>
        let a0 := ct.argD 0
        let na0 : Argument := { type := ArgType.INT_VAR_REF_ARRAY,
                                values := a0.values,
                                vars := (a0.vars.set 0 mapping.variable1) ++
                                        [mapping.variable2] }
        let ct := ct.setArg 0 na0
        { ct with arguments := ct.arguments ++
            [Argument.IntegerList [mapping.coefficient, 1],
             Argument.IntegerValue mapping.offset] })
      let st := if (st.getCt c).target_variable ≠ none then
          removeTargetVariable st c
        else st
      let st := st.updateVar index_var (fun x => { x with active := false })
      let st := markAsInactive st mapping.constraint
      some (st, true)

/-- `Presolver::PresolveSimplifyElement`: the affine and 2d regions above,
then the singleton-index rewrite to `int_eq`, the truncation of the array
to the index's upper bound, and the linearization of an increasing
contiguous array. -/
def presolveSimplifyElement (st : State) (c : Nat) : State × Bool :=
  let ct := st.getCt c
  if decide (1 < (ct.argD 0).vars.length) then (st, false)
  else
    let index_var := (ct.argD 0).Var
    match simplifyElementAffine st c index_var with
    | some r => r
    | none =>
    match simplifyElementArray2d st c index_var with
    | some r => r
    | none =>
    if (st.getVar index_var).domain.HasOneValue then
      -- Rule 3.
      let index := (st.getVar index_var).domain.values.getD 0 0 - 1
      let value := ((st.getCt c).argD 1).values.getD index.toNat 0
      let st := st.updateCt c (fun ct =>
        let a0 := ct.argD 0
        let na0 : Argument := { type := ArgType.INT_VALUE,
                                values := a0.values ++ [value], vars := [] }
        let ct := ct.setArg 0 na0
        let ct := ct.RemoveArg 1
        { ct with type := "int_eq" })
      (st, true)
    else if (st.getVar index_var).domain.is_interval &&
       decide ((st.getVar index_var).domain.values.length = 2) &&
       decide ((st.getVar index_var).domain.Max <
         (((st.getCt c).argD 1).values.length : Int)) then
      -- Reduce the array of values.
      let maxIdx := (st.getVar index_var).domain.Max.toNat
      let st := st.updateCt c (fun ct =>
        let ct := ct.setArg 1 { ct.argD 1 with
                                values := (ct.argD 1).values.take maxIdx }
        { ct with presolve_propagation_done := false })
      (st, true)
    else if isIncreasingContiguous ((st.getCt c).argD 1).values then
      -- Rule 4.
      let start := ((st.getCt c).argD 1).values.headD 0
      let index := ((st.getCt c).argD 0).Var
      let target := ((st.getCt c).argD 2).Var
      if start = 1 then
        (st.updateCt c (fun ct =>
          { ct.RemoveArg 1 with type := "int_eq" }), true)
      else
        (st.updateCt c (fun ct =>
          let a0 := ct.argD 0
          let na0 : Argument := { type := ArgType.INT_LIST,
                                  values := a0.values ++ [-1, 1], vars := [] }
          let ct := ct.setArg 0 na0
          let a1 := ct.argD 1
          let na1 : Argument := { type := ArgType.INT_VAR_REF_ARRAY,
                                  values := [],
                                  vars := a1.vars ++ [target, index] }
          let ct := ct.setArg 1 na1
          let a2 := ct.argD 2
          let na2 : Argument := { type := ArgType.INT_VALUE,
                                  values := a2.values ++ [1 - start],
                                  vars := [] }
          let ct := ct.setArg 2 na2
          { ct with type := "int_lin_eq" }), true)
    else (st, false)

/-! ### Rule: PresolveArrayIntElement (presolve.cc lines 909-963) -/

/-- The descending `last_index` loop of `PresolveArrayIntElement` rule 1:
peel indices whose array value lies outside the target's bounds. -/
def elementLastIndex (values : List Int) (tmin tmax : Int) :
    Nat → Int → Int
  | 0, last => last
  | fuel + 1, last =>
      if decide (1 ≤ last) then
        let v := values.getD (last - 1).toNat 0
        if decide (v < tmin) || decide (tmax < v) then
          elementLastIndex values tmin tmax fuel (last - 1)
        else last
      else last

/-- The ascending `first_index` loop of `PresolveArrayIntElement` rule 1. -/
def elementFirstIndex (values : List Int) (tmin tmax : Int) :
    Nat → Int → Int → Int
  | 0, first, _ => first
  | fuel + 1, first, last =>
      if decide (first ≤ last) then
        let v := values.getD (first - 1).toNat 0
        if decide (v < tmin) || decide (tmax < v) then
          elementFirstIndex values tmin tmax fuel (first + 1) last
        else first
      else first

/-- `Presolver::PresolveArrayIntElement`: rule 1 trims the index interval
and the value array against the target's bounds; rule 2 intersects the
target's domain with the full array of values (once, guarded by the
`presolve_propagation_done` flag). -/
def presolveArrayIntElement (st : State) (c : Nat) : State × Bool :=
  let ct := st.getCt c
  let r1 : Option (State × Bool) :=
    if decide ((ct.argD 0).vars.length = 1) &&
       !argHasOneValue st (ct.argD 0) then
      let target_min :=
        if argHasOneValue st (ct.argD 2) then argValue st (ct.argD 2)
        else (st.getVar (ct.argD 2).Var).domain.Min
      let target_max :=
        if argHasOneValue st (ct.argD 2) then argValue st (ct.argD 2)
        else (st.getVar (ct.argD 2).Var).domain.Max
      let values := (ct.argD 1).values
      let last0 := min ((st.getVar (ct.argD 0).Var).domain.Max)
        (values.length : Int)
      let last := elementLastIndex values target_min target_max
        (values.length + 1) last0
      let first0 := max ((st.getVar (ct.argD 0).Var).domain.Min) 1
      let first := elementFirstIndex values target_min target_max
        (values.length + 1) first0 last
      if decide (last < (st.getVar (ct.argD 0).Var).domain.Max) ||
         decide ((st.getVar (ct.argD 0).Var).domain.Min < first) then
        let st := st.updateVar (ct.argD 0).Var (fun x =>
          { x with domain := x.domain.IntersectWithInterval first last })
        let st := st.updateCt c (fun ct =>
          ct.setArg 1 { ct.argD 1 with
                        values := (ct.argD 1).values.take last.toNat })
        some (st, true)
      else none
    else none
  match r1 with
  | some r => r
  | none =>
      if (ct.argD 2).IsVariable && !ct.presolve_propagation_done then
        -- Rule 2.
        let st := st.updateVar (ct.argD 2).Var (fun x =>
          { x with domain := intersectDomainWith st (ct.argD 1) x.domain })
        (st.updateCt c (fun ct =>
          { ct with presolve_propagation_done := true }), true)
      else (st, false)

/-! ### Dispatch (presolve.cc lines 2005-2114) -/

/-- The `CALL_TYPE` macro: offer the constraint to `rule` when it is active
and its tag is exactly `ty`, accumulating the modification flag. -/
def callTag (st : State) (chg : Bool) (c : Nat) (ty : String)
    (rule : State → Nat → State × Bool) : State × Bool :=
  if (st.getCt c).active && (st.getCt c).type = ty then
    let r := rule st c
    (r.1, chg || r.2)
  else (st, chg)

/-- The `CALL_PREFIX` macro: dispatch on the leading part of the tag. -/
def callHead (st : State) (chg : Bool) (c : Nat) (ty : String)
    (rule : State → Nat → State × Bool) : State × Bool :=
  if (st.getCt c).active && strStartsWith (st.getCt c).type ty then
    let r := rule st c
    (r.1, chg || r.2)
  else (st, chg)

/-- The `CALL_SUFFIX` macro: dispatch on the trailing part of the tag. -/
def callTail (st : State) (chg : Bool) (c : Nat) (ty : String)
    (rule : State → Nat → State × Bool) : State × Bool :=
  if (st.getCt c).active && strEndsWith (st.getCt c).type ty then
    let r := rule st c
    (r.1, chg || r.2)
  else (st, chg)

/-- `Presolver::PresolveOneConstraint`, restricted to the embedded rule
fragment.  The dispatch lines below keep the source's order; the source's
remaining lines dispatch rules for tags outside this fragment
(`bool2int`, the binary inequalities, `int_abs`, `int_ne`/`bool_not`,
`set_in`, the boolean-array and boolean rules, `int_times`, the reified
rules and `int_mod`) and fire on no constraint tag appearing in the models
below.  The trailing target sweep is the source's final block. -/
def presolveOneConstraint (st : State) (c : Nat) : State × Bool :=
  let r := callTail st false c "_reif" unreify
  let r := callTag r.1 r.2 c "int_eq" presolveIntEq
  let r := callTag r.1 r.2 c "bool_eq" presolveIntEq
  let r := callTag r.1 r.2 c "int_div" presolveIntDiv
  let r := callTag r.1 r.2 c "int_lin_gt" presolveIntLinGt
  let r := callTag r.1 r.2 c "int_lin_lt" presolveIntLinLt
  let r := callHead r.1 r.2 c "int_lin_" presolveLinear
  let r := callHead r.1 r.2 c "int_lin_" regroupLinear
  let r := callHead r.1 r.2 c "int_lin_" simplifyUnaryLinear
  let r := callHead r.1 r.2 c "int_lin_" simplifyBinaryLinear
  let r := callTag r.1 r.2 c "int_lin_eq" propagatePositiveLinear
  let r := callTag r.1 r.2 c "int_lin_le" propagatePositiveLinear
  let r := callTag r.1 r.2 c "int_lin_ge" propagatePositiveLinear
  let r := callTag r.1 r.2 c "int_lin_eq" createLinearTarget
  let r := callTag r.1 r.2 c "int_lin_eq" presolveStoreMapping
  let r := callTag r.1 r.2 c "array_int_element" presolveSimplifyElement
  let r := callTag r.1 r.2 c "array_int_element" presolveArrayIntElement
  let st := r.1
  match (st.getCt c).target_variable with
  | some v =>
      if (st.getVar v).domain.HasOneValue then
        ((st.updateVar v (fun x =>
            { x with defining_constraint := none })).updateCt c
          (fun ct => { ct with target_variable := none }), true)
      else (st, r.2)
  | none => (st, r.2)

/-! ### Driver (presolve.cc lines 2137-2272, 2324-2395) -/

/-- The `var_to_constraints_` rebuild at the top of `Presolver::Run`. -/
def buildVarToConstraints (st : State) : State :=
  let m := (List.range st.constraints.length).foldl
    (fun m c =>
      (st.getCt c).arguments.foldl
        (fun m a =>
          a.vars.foldl
            (fun m v => mapInsert m v (setInsert ((mapFind m v).getD []) c))
            m)
        m)
    st.var_to_constraints
  { st with var_to_constraints := m }

/-- One tag's worth of `Presolver::MergeIntEqNe`: extract the
(variable, constant) pair of a reified comparison with a variable boolean,
if the constraint has that shape. -/
def mergeIntEqNeKey (st : State) (ct : Constraint) : Option (Nat × Int) :=
  if (ct.argD 0).values = [] && (ct.argD 1).vars = [] then
    some ((ct.argD 0).Var, argValue st (ct.argD 1))
  else if (ct.argD 1).values = [] && (ct.argD 0).vars = [] then
    some ((ct.argD 1).Var, argValue st (ct.argD 0))
  else none

/-- `Presolver::MergeIntEqNe`: memoize the boolean of each
`int_eq_reif(x, c, b)` / `int_ne_reif(x, c, b)` against a constant and
merge duplicates by substituting their booleans. -/
def mergeIntEqNe (st : State) : State :=
  let step := fun
    (acc : State × List (Nat × List (Int × Nat)) × List (Nat × List (Int × Nat)))
    (c : Nat) =>
    let st := acc.1
    let meq := acc.2.1
    let mne := acc.2.2
    let ct := st.getCt c
    if !ct.active then acc
    else if ct.type = "int_eq_reif" && (ct.argD 2).values = [] then
      match mergeIntEqNeKey st ct with
      | none => acc
      | some p =>
          let boolvar := (ct.argD 2).Var
          let inner := (mapFind meq p.1).getD []
          match mapFind inner p.2 with
          | none => (st, mapInsert meq p.1 (mapInsert inner p.2 boolvar), mne)
          | some stored =>
              let st := markAsInactive st c
              (addVariableSubstition st stored boolvar, meq, mne)
    else if ct.type = "int_ne_reif" && (ct.argD 2).values = [] then
      match mergeIntEqNeKey st ct with
      | none => acc
      | some p =>
          let boolvar := (ct.argD 2).Var
          let inner := (mapFind mne p.1).getD []
          match mapFind inner p.2 with
          | none => (st, meq, mapInsert mne p.1 (mapInsert inner p.2 boolvar))
          | some stored =>
              let st := markAsInactive st c
              (addVariableSubstition st stored boolvar, meq, mne)
    else acc
  ((List.range st.constraints.length).foldl step (st, [], [])).1

/-- The per-argument rewrite of `Presolver::SubstituteEverywhere`: replace
every variable reference of argument `ai` of constraint `c` by its
representative, updating `var_to_constraints_`. -/
def rewriteArgVars (st : State) (c : Nat) (ai : Nat) : State :=
  match ((st.getCt c).argD ai).type with
  | ArgType.INT_VAR_REF | ArgType.INT_VAR_REF_ARRAY =>
      (List.range ((st.getCt c).argD ai).vars.length).foldl
        (fun st i =>
          let old_var := ((st.getCt c).argD ai).vars.getD i 0
          let r := findRepresentativeOfVar st old_var
          let st := r.1
          if r.2 ≠ old_var then
            let st := st.updateCt c (fun ct =>
              ct.setArg ai { ct.argD ai with
                             vars := (ct.argD ai).vars.set i r.2 })
            let entry := setInsert ((mapFind st.var_to_constraints r.2).getD []) c
            { st with var_to_constraints :=
                mapInsert st.var_to_constraints r.2 entry }
          else st)
        st
  | _ => st

/-- `Presolver::SubstituteEverywhere`: rewrite the variable arguments and
target of every impacted active constraint, then re-intersect every
representative's domain with its source's domain.  (The source also
rewrites search annotations and output specifications, which are outside
the embedded IR.) -/
def substituteEverywhere (st : State) : State :=
  let impacted := st.var_representative_map.foldl
    (fun acc p => ((mapFind st.var_to_constraints p.1).getD []).foldl
      setInsert acc) []
  let st := impacted.foldl
    (fun st c =>
      if (st.getCt c).active then
        let st := (List.range (st.getCt c).arguments.length).foldl
          (fun st ai => rewriteArgVars st c ai) st
        match (st.getCt c).target_variable with
        | none => st
        | some tv =>
            let r := findRepresentativeOfVar st tv
            r.1.updateCt c (fun ct => { ct with target_variable := some r.2 })
      else st)
    st
  st.var_representative_map.foldl
    (fun st p =>
      st.updateVar p.2 (fun x =>
        { x with domain :=
            x.domain.IntersectWithDomain (st.getVar p.1).domain }))
    st

/-- One sweep of the main loop of `Presolver::Run`: offer every active
constraint to `PresolveOneConstraint`, stopping early as soon as a
substitution has been recorded. -/
def sweepConstraints (st : State) : State × Bool :=
  let r := (List.range st.constraints.length).foldl
    (fun (acc : State × Bool × Bool) c =>
      if acc.2.2 then acc
      else
        let r := if (acc.1.getCt c).active then presolveOneConstraint acc.1 c
          else (acc.1, false)
        (r.1, (acc.2.1 || r.2),
         decide (r.1.var_representative_map ≠ [])))
    (st, false, false)
  (r.1, r.2.1)

/-- The `for (;;)` fixed-point loop of `Presolver::Run`, with explicit
fuel: clear the substitution map, sweep, flush substitutions if any were
recorded, and stop as soon as a sweep (plus flush) changed nothing. -/
def runLoop : Nat → State → State
  | 0, st => st
  | fuel + 1, st =>
      let st := { st with var_representative_map := [] }
      let r := sweepConstraints st
      let r :=
        if r.1.var_representative_map ≠ [] then
          ({ (substituteEverywhere r.1) with var_representative_map := [] },
           true)
        else r
      if r.2 then runLoop fuel r.1 else r.1

/-- The part of `Presolver::Run` before the main loop: rebuild
`var_to_constraints_` if empty, run the first-pass scan and `MergeIntEqNe`
(flushing any substitutions), and prime the `bool2int` constraints
(flushing again). -/
def prepRun (st : State) : State :=
  let st := if st.var_to_constraints = [] then buildVarToConstraints st else st
  let st := firstPassModelScan st
  let st := mergeIntEqNe st
  let st :=
    if st.var_representative_map ≠ [] then
      { (substituteEverywhere st) with var_representative_map := [] }
    else st
  let st := (List.range st.constraints.length).foldl
    (fun st c =>
      if (st.getCt c).active && (st.getCt c).type = "bool2int" then
        (presolveBool2Int st c).1
      else st)
    st
  if st.var_representative_map ≠ [] then
    { (substituteEverywhere st) with var_representative_map := [] }
  else st

/-- `Presolver::Run`: the preparation passes followed by the main
fixed-point loop.  The source's boolean result (whether anything changed)
is not modelled; the claims below concern the final model state. -/
def run (fuel : Nat) (st : State) : State :=
  runLoop fuel (prepRun st)

/-! ### Cleanup pass (presolve.cc lines 2421-2703) -/

/-- `IsArrayBoolean` (presolve.cc lines 31-39). -/
def isArrayBoolean (values : List Int) : Bool :=
  values.all (fun v => decide (v = 0) || decide (v = 1))

/-- `OnlyOne0OrOnlyOne1` (presolve.cc lines 41-56): at most one nonzero
entry or at most one zero entry. -/
def onlyOne0OrOnlyOne1 (values : List Int) : Bool :=
  decide ((values.filter (fun v => decide (v ≠ 0))).length ≤ 1) ||
  decide ((values.filter (fun v => decide (v = 0))).length ≤ 1)

/-- `SortWeight` (presolve.cc lines 2459-2465): reified constraints weigh
their variable arity, others 100 more. -/
def sortWeight (ct : Constraint) : Nat :=
  (if strEndsWith ct.type "_reif" then 0 else 100) +
  ct.arguments.foldl (fun acc a => acc + a.vars.length) 0

/-- Stable insertion into a list sorted by `k` (standing in for the
source's `std::sort`, whose order between equal weights is unspecified). -/
def insertSorted (k : Nat → Nat) (x : Nat) : List Nat → List Nat
  | [] => [x]
  | y :: rest => if k x < k y then x :: y :: rest else y :: insertSorted k x rest

/-- Sort constraint indices by weight (see `insertSorted`). -/
def sortByKey (k : Nat → Nat) (xs : List Nat) : List Nat :=
  xs.foldl (fun acc x => insertSorted k x acc) []

/-- The coefficient scan of the targeted `int_lin_eq` normalization in the
cleanup's first pass: walk the (coefficient, variable) pairs; at the first
occurrence of the target with coefficient -1 stop without action, with
coefficient +1 stop and request the negation, otherwise keep scanning. -/
def intLinEqTargetFlip : List (Int × Nat) → Nat → Bool
  | [], _ => false
  | (coef, v) :: rest, var =>
      if v = var then
        if coef = -1 then false
        else if coef = 1 then true
        else intLinEqTargetFlip rest var
      else intLinEqTargetFlip rest var

/-- First pass of `CleanUpModelForTheCpSolver`: strip target annotations
the downstream solver cannot honor and normalize the sign of a targeted
`int_lin_eq`'s coefficients. -/
def cleanUpFirstPass (use_sat : Bool) (st : State) (c : Nat) : State :=
  let st :=
    if (st.getCt c).type = "int_lin_eq" && (st.getCt c).strong_propagation &&
       decide (3 < ((st.getCt c).argD 0).values.length) then
      removeTargetVariable st c
    else st
  let st :=
    if (st.getCt c).type = "int_lin_eq" &&
       (st.getCt c).target_variable ≠ none then
      let ct := st.getCt c
      let var := ct.target_variable.getD 0
      if intLinEqTargetFlip (List.zip (ct.argD 0).values (ct.argD 1).vars)
          var then
        st.updateCt c (fun ct =>
          let a2 := ct.argD 2
          let ct := ct.setArg 2 { a2 with values :=
            match a2.values with
            | v :: rest => (v * (-1)) :: rest
            | [] => [] }
          let a0 := ct.argD 0
          ct.setArg 0 { a0 with values := a0.values.map (fun x => x * (-1)) })
      else st
    else st
  let st :=
    if (st.getCt c).type = "array_var_int_element" &&
       (st.getCt c).target_variable ≠ none &&
       ((st.getCt c).argD 1).vars.contains
         ((st.getCt c).target_variable.getD 0) then
      removeTargetVariable st c
    else st
  let st :=
    if use_sat && (st.getCt c).target_variable ≠ none &&
       ((st.getCt c).type = "array_bool_and" ||
        (st.getCt c).type = "array_bool_or" ||
        (((st.getCt c).type = "bool_eq_reif" ||
          (st.getCt c).type = "bool_ne_reif") &&
         !argHasOneValue st ((st.getCt c).argD 1)) ||
        (st.getCt c).type = "bool_le_reif" ||
        (st.getCt c).type = "bool_ge_reif") then
      removeTargetVariable st c
    else st
  let st :=
    if (st.getCt c).type = "count_reif" ||
       (st.getCt c).type = "set_in_reif" then
      removeTargetVariable st c
    else st
  if ((st.getCt c).type = "array_int_element" &&
      (!isArrayBoolean ((st.getCt c).argD 1).values ||
       !onlyOne0OrOnlyOne1 ((st.getCt c).argD 1).values)) ||
     (st.getCt c).type = "array_var_int_element" then
    removeTargetVariable st c
  else st

/-- `CleanUpVariableWithMultipleDefiningConstraints` (presolve.cc lines
2467-2494): for every variable targeted by several constraints, keep the
lightest (by `SortWeight`) as its defining constraint and strip the target
from the rest.  The defining-constraint map is gathered in constraint
order. -/
def cleanUpVariableWithMultipleDefining (st : State) : State :=
  let ctVarMap : List (Nat × List Nat) :=
    (List.range st.constraints.length).foldl
      (fun m c =>
        match (st.getCt c).target_variable with
        | some v => mapInsert m v (((mapFind m v).getD []) ++ [c])
        | none => m)
      []
  ctVarMap.foldl
    (fun st p =>
      if decide (1 < p.2.length) then
        let sorted := sortByKey (fun c => sortWeight (st.getCt c)) p.2
        let st := (sorted.drop 1).foldl
          (fun st c2 =>
            let st := st.updateVar p.1 (fun x =>
              { x with defining_constraint := some c2 })
            removeTargetVariable st c2)
          st
        st.updateVar p.1 (fun x =>
          { x with defining_constraint := some (sorted.headD 0) })
      else st)
    st

/-- Second pass of `CleanUpModelForTheCpSolver`: attach the boolean of a
reified comparison without target as its target when that boolean is a
variable with no defining constraint.  (The source reads `arguments[2]`,
so the `int_lin_..._reif` tags, whose boolean is argument 3, never match
the variable test.) -/
def cleanUpSecondPass (st : State) (c : Nat) : State :=
  let ct := st.getCt c
  if ct.target_variable = none &&
     (ct.type = "int_lin_eq_reif" || ct.type = "int_lin_ne_reif" ||
      ct.type = "int_lin_ge_reif" || ct.type = "int_lin_le_reif" ||
      ct.type = "int_lin_gt_reif" || ct.type = "int_lin_lt_reif" ||
      ct.type = "int_eq_reif" || ct.type = "int_ne_reif" ||
      ct.type = "int_le_reif" || ct.type = "int_ge_reif" ||
      ct.type = "int_lt_reif" || ct.type = "int_gt_reif") then
    if (ct.argD 2).IsVariable &&
       (st.getVar (ct.argD 2).Var).defining_constraint = none then
      let v := (ct.argD 2).Var
      let st := st.updateCt c (fun ct => { ct with target_variable := some v })
      st.updateVar v (fun x => { x with defining_constraint := some c })
    else st
  else st

/-- `CheckRegroupStart` (presolve.cc lines 2442-2454): an `int_min` /
`int_max` whose two operands are the same variable starts a chain; its
carry variable loses its defining constraint. -/
def checkRegroupStart (st : State) (c : Nat) :
    State × Option (Nat × List Nat × List Nat) :=
  let ct := st.getCt c
  if (ct.type = "int_min" || ct.type = "int_max") &&
     (ct.argD 0).vars ≠ [] && (ct.argD 0).Var = (ct.argD 1).Var then
    let carryv := (ct.argD 2).Var
    (st.updateVar carryv (fun x => { x with defining_constraint := none }),
     some (c, [(ct.argD 0).Var], [carryv]))
  else (st, none)

/-- `Regroup` (presolve.cc lines 2421-2440): rewrite the chain's start
constraint into `minimum_int` / `maximum_int` over the collected array,
point it at the final carry variable as target, and deactivate the
intermediate carries. -/
def regroup (st : State) (startc : Nat) (chain carry : List Nat) : State :=
  let out := carry.getLastD 0
  let st := st.updateCt startc (fun ct =>
    let ct := { ct with arguments := ct.arguments.dropLast }
    let ct := ct.setArg 0 { ct.argD 0 with vars := (ct.argD 0).vars.set 0 out }
    let ct := ct.setArg 1 { ct.argD 1 with type := ArgType.INT_VAR_REF_ARRAY,
                                           vars := chain }
    { ct with type := if ct.type = "int_min" then "minimum_int"
                      else "maximum_int",
              target_variable := some out })
  let st := st.updateVar out (fun x =>
    { x with defining_constraint := some startc })
  carry.foldl
    (fun st v =>
      if v ≠ out then st.updateVar v (fun x => { x with active := false })
      else st)
    st

/-- The min/max chain walk of `CleanUpModelForTheCpSolver` (presolve.cc
lines 2612-2650): grow a chain while each constraint of the same tag takes
the previous carry as second operand and a first operand used by at most
two constraints; regroup at every chain break and at the end. -/
def chainLoop (st : State) : State :=
  let acc := (List.range st.constraints.length).foldl
    (fun (acc : State × Option (Nat × List Nat × List Nat)) c =>
      let st := acc.1
      match acc.2 with
      | none => checkRegroupStart st c
      | some s =>
          let startc := s.1
          let chain := s.2.1
          let carry := s.2.2
          let ct := st.getCt c
          if ct.type = (st.getCt startc).type &&
             (ct.argD 1).Var = carry.getLastD 0 &&
             decide (((mapFind st.var_to_constraints (ct.argD 0).Var).getD
               []).length ≤ 2) then
            let newcarry := (ct.argD 2).Var
            let st := st.updateCt c (fun ct =>
              { ct with active := false, target_variable := none })
            let st := st.updateVar newcarry (fun x =>
              { x with defining_constraint := none })
            (st, some (startc, chain ++ [(ct.argD 0).Var],
                       carry ++ [newcarry]))
          else
            let st := regroup st startc chain carry
            checkRegroupStart st c)
    (st, none)
  match acc.2 with
  | some s => regroup acc.1 s.1 s.2.1 s.2.2
  | none => acc.1

/-- `AreOnesFollowedByMinusOne` (presolve.cc lines 2496-2503); the source
reads `coeffs.back()` unguarded, its callers only pass nonempty vectors. -/
def areOnesFollowedByMinusOne (coeffs : List Int) : Bool :=
  coeffs ≠ [] && (coeffs.dropLast).all (fun v => decide (v = 1)) &&
  decide (coeffs.getLastD 0 = -1)

/-- `IsStrictPrefix` (presolve.cc lines 2505-2516). -/
def isStrictPrefix (v1 v2 : List Nat) : Bool :=
  decide (v1.length < v2.length) && decide (v2.take v1.length = v1)

/-- The linear-sum chain walk of `CleanUpModelForTheCpSolver` (presolve.cc
lines 2652-2703): recognize `int_lin_eq([1..1,-1], [x1..xn, yn], 0)`
chains where each successor extends the variable prefix by one, and
rewrite each successor as an `int_plus`. -/
def intPlusChainLoop (st : State) : State :=
  let acc := (List.range st.constraints.length).foldl
    (fun (acc : State × List Nat × Option Nat × Option Nat) c =>
      let st := acc.1
      let curvars := acc.2.1
      match acc.2.2.1 with
      | none =>
          let ct := st.getCt c
          if ct.type = "int_lin_eq" &&
             decide ((ct.argD 0).values.length = 3) &&
             areOnesFollowedByMinusOne (ct.argD 0).values &&
             (ct.argD 1).values = [] &&
             decide (argValue st (ct.argD 2) = 0) then
            let cur := (ct.argD 1).vars
            (st, cur.dropLast, some (cur.getLastD 0), some c)
          else acc
      | some tv =>
          let ct := st.getCt c
          if ct.type = "int_lin_eq" &&
             areOnesFollowedByMinusOne (ct.argD 0).values &&
             decide ((ct.argD 0).values.length = curvars.length + 2) &&
             isStrictPrefix curvars (ct.argD 1).vars then
            let cur := (ct.argD 1).vars
            let st := st.updateCt c (fun ct =>
              let na0 : Argument := { type := ArgType.INT_VAR_REF,
                                      values := [], vars := [tv] }
              let ct := ct.setArg 0 na0
              let na1 : Argument := { type := ArgType.INT_VAR_REF,
                                      values := (ct.argD 1).values,
                                      vars := [cur.getD (cur.length - 2) 0] }
              let ct := ct.setArg 1 na1
              let na2 : Argument := { type := ArgType.INT_VAR_REF,
                                      values := [], vars := [cur.getLastD 0] }
              let ct := ct.setArg 2 na2
              { ct with type := "int_plus" })
            let st := removeTargetVariable st c
            let st := match acc.2.2.2 with
              | some fc => removeTargetVariable st fc
              | none => st
            (st, cur.dropLast, some (cur.getLastD 0), none)
          else (st, [], none, acc.2.2.2)
      )
    (st, [], none, none)
  acc.1

/-- `Presolver::CleanUpModelForTheCpSolver`: the two target passes, the
multiple-defining-constraint cleanup, the `var_to_constraints_` rebuild,
and the two chain-regrouping walks. -/
def cleanUpModelForTheCpSolver (st : State) (use_sat : Bool) : State :=
  let st := (List.range st.constraints.length).foldl
    (cleanUpFirstPass use_sat) st
  let st := cleanUpVariableWithMultipleDefining st
  let st := (List.range st.constraints.length).foldl cleanUpSecondPass st
  let st := buildVarToConstraints { st with var_to_constraints := [] }
  let st := chainLoop st
  intPlusChainLoop st

/-! ### Solution semantics -/

/-- `Σ coeffs[i] * vals[i]`, as in the source's scalar-product loops. -/
def scalProd (coeffs vals : List Int) : Int :=
  (List.zipWith (· * ·) coeffs vals).foldl (· + ·) 0

/-- Modelled from the spec: the flat language's meaning of one constraint
of the fragment exercised below, under a total assignment `a` (variable
index to value): `int_lin_eq` requires the scalar product of the
coefficients with the variables' values to equal the right-hand side;
`array_int_element` requires the 1-based array read `A[a(index)]` to equal
the target's value with the index inside the array; other tags place no
requirement here. -/
def ctHolds (a : List Int) (ct : Constraint) : Bool :=
  if ct.type = "int_lin_eq" then
    decide (scalProd (ct.argD 0).values
      ((ct.argD 1).vars.map (fun v => a.getD v 0)) = (ct.argD 2).values.headD 0)
  else if ct.type = "array_int_element" then
    let idx := a.getD (ct.argD 0).Var 0
    decide (1 ≤ idx) && decide (idx ≤ ((ct.argD 1).values.length : Int)) &&
    decide ((ct.argD 1).values.getD (idx - 1).toNat 0 = a.getD (ct.argD 2).Var 0)
  else true

/-- Modelled from the spec: "every satisfying assignment" — an assignment
is satisfying when every active variable's value lies in its domain and
every active constraint holds (a constraint with `active = false` is
treated as removed). -/
def assignSat (st : State) (a : List Int) : Bool :=
  (List.range st.vars.length).all (fun v =>
    !(st.getVar v).active || (st.getVar v).domain.Contains (a.getD v 0)) &&
  st.constraints.all (fun ct => !ct.active || ctHolds a ct)

/-! ### Concrete models used by the claims -/

/-- The failing input of the `Unreify` set branch: `set_not_in_reif` over
one variable, a constant set, and the boolean fixed to 0. -/
def c3Input : State :=
  ⟨[⟨⟨true, [0, 1]⟩, true, false, none⟩],
   [⟨"set_not_in_reif",
     [Argument.IntVarRef 0, Argument.IntegerList [3, 4],
      Argument.IntegerValue 0], true, none, false, false⟩],
   [], [], [], [], []⟩

/-- `int_lin_gt([1], [x], kint64max)`: the guarded sentinel case of
`PresolveIntLinGt`. -/
def c8CexInput : State :=
  ⟨[⟨⟨true, [0, 5]⟩, true, false, none⟩],
   [⟨"int_lin_gt",
     [Argument.IntegerList [1], Argument.IntVarRefArray [0],
      Argument.IntegerValue kint64max], true, none, false, false⟩],
   [], [], [], [], []⟩

/-- `int_lin_gt([1], [x], 7)` and `int_lin_lt([1], [x], 7)` on an ordinary
right-hand side. -/
def c8WitnessInput : State :=
  ⟨[⟨⟨true, [0, 5]⟩, true, false, none⟩],
   [⟨"int_lin_gt",
     [Argument.IntegerList [1], Argument.IntVarRefArray [0],
      Argument.IntegerValue 7], true, none, false, false⟩,
    ⟨"int_lin_lt",
     [Argument.IntegerList [1], Argument.IntVarRefArray [0],
      Argument.IntegerValue 7], true, none, false, false⟩],
   [], [], [], [], []⟩

/-- `int_eq(3, 3)`: a trivially true constant equality. -/
def c9InputA : State :=
  ⟨[], [⟨"int_eq", [Argument.IntegerValue 3, Argument.IntegerValue 3],
        true, none, false, false⟩],
   [], [], [], [], []⟩

/-- `int_eq(3, 4)`: a contradictory constant equality. -/
def c9InputB : State :=
  ⟨[], [⟨"int_eq", [Argument.IntegerValue 3, Argument.IntegerValue 4],
        true, none, false, false⟩],
   [], [], [], [], []⟩

/-- `int_div(6, 0, x)`: a constant division by zero. -/
def c10Input : State :=
  ⟨[⟨⟨true, [0, 10]⟩, true, false, none⟩],
   [⟨"int_div",
     [Argument.IntegerValue 6, Argument.IntegerValue 0,
      Argument.IntVarRef 0], true, none, false, false⟩],
   [], [], [], [], []⟩

/-- `int_lin_eq([1, 1, -1], [x, y, z], 0)` with `x, y, z` the variables
0, 1, 2 — the coefficient pattern named by the specification's difference
scenario. -/
def c2CexInput : State :=
  ⟨[⟨⟨true, [0, 10]⟩, true, false, none⟩,
    ⟨⟨true, [0, 10]⟩, true, false, none⟩,
    ⟨⟨true, [0, 10]⟩, true, false, none⟩],
   [⟨"int_lin_eq",
     [Argument.IntegerList [1, 1, -1], Argument.IntVarRefArray [0, 1, 2],
      Argument.IntegerValue 0], true, none, false, false⟩],
   [], [], [], [], []⟩

/-- `int_lin_eq([1, -1, 1], [x, y, z], 0)` followed by `int_eq(z, 0)`, with
`x, y, z` the variables 0, 1, 2 — the coefficient pattern the scan
actually stores. -/
def c2WitnessInput : State :=
  ⟨[⟨⟨true, [0, 10]⟩, true, false, none⟩,
    ⟨⟨true, [0, 10]⟩, true, false, none⟩,
    ⟨⟨true, [0, 10]⟩, true, false, none⟩],
   [⟨"int_lin_eq",
     [Argument.IntegerList [1, -1, 1], Argument.IntVarRefArray [0, 1, 2],
      Argument.IntegerValue 0], true, none, false, false⟩,
    ⟨"int_eq", [Argument.IntVarRef 2, Argument.IntegerValue 0],
     true, none, false, false⟩],
   [], [], [], [], []⟩

/-- Two variables both carrying defining constraints, variable 0 temporary
and variable 1 not, for exercising `AddVariableSubstition`. -/
def c6Input : State :=
  ⟨[⟨⟨true, [0, 5]⟩, true, true, some 0⟩,
    ⟨⟨true, [2, 8]⟩, true, false, some 1⟩],
   [⟨"int_plus", [Argument.IntVarRef 0, Argument.IntVarRef 0,
      Argument.IntVarRef 0], true, some 0, false, false⟩,
    ⟨"int_plus", [Argument.IntVarRef 1, Argument.IntVarRef 1,
      Argument.IntVarRef 1], true, some 1, false, false⟩],
   [], [], [], [], []⟩

/-- The affine-element model: variables `j ∈ [0,3]`, `i ∈ [3,6]` (defined
by the affine constraint as `i = j + 3`) and `t ∈ [0,100]`, with the
constraints `int_lin_eq([1,-1], [j,i], -3)` (target `i`) and
`array_int_element(i, [10,20,30,40,50,60], t)`. -/
def c4Model : State :=
  ⟨[⟨⟨true, [0, 3]⟩, true, false, none⟩,
    ⟨⟨true, [3, 6]⟩, true, false, some 0⟩,
    ⟨⟨true, [0, 100]⟩, true, false, none⟩],
   [⟨"int_lin_eq",
     [Argument.IntegerList [1, -1], Argument.IntVarRefArray [0, 1],
      Argument.IntegerValue (-3)], true, some 1, false, false⟩,
    ⟨"array_int_element",
     [Argument.IntVarRef 1, Argument.IntegerList [10, 20, 30, 40, 50, 60],
      Argument.IntVarRef 2], true, none, false, false⟩],
   [], [], [], [], []⟩

/-- The element-scenario model: `array_int_element(i, [10,20,30,40], t)`
with `i ∈ [2,3]` and `t ∈ [0,100]`. -/
def c5Model : State :=
  ⟨[⟨⟨true, [2, 3]⟩, true, false, none⟩,
    ⟨⟨true, [0, 100]⟩, true, false, none⟩],
   [⟨"array_int_element",
     [Argument.IntVarRef 0, Argument.IntegerList [10, 20, 30, 40],
      Argument.IntVarRef 1], true, none, false, false⟩],
   [], [], [], [], []⟩

/-- The min-chain model: `int_min(x,x,t1); int_min(y,t1,t2);
int_min(z,t2,t3)` over variables `x,y,z = 0,1,2` and carries
`t1,t2,t3 = 3,4,5`. -/
def c7Model : State :=
  ⟨[⟨⟨true, [0, 9]⟩, true, false, none⟩,
    ⟨⟨true, [0, 9]⟩, true, false, none⟩,
    ⟨⟨true, [0, 9]⟩, true, false, none⟩,
    ⟨⟨true, [0, 9]⟩, true, true, none⟩,
    ⟨⟨true, [0, 9]⟩, true, true, none⟩,
    ⟨⟨true, [0, 9]⟩, true, false, none⟩],
   [⟨"int_min", [Argument.IntVarRef 0, Argument.IntVarRef 0,
      Argument.IntVarRef 3], true, none, false, false⟩,
    ⟨"int_min", [Argument.IntVarRef 1, Argument.IntVarRef 3,
      Argument.IntVarRef 4], true, none, false, false⟩,
    ⟨"int_min", [Argument.IntVarRef 2, Argument.IntVarRef 4,
      Argument.IntVarRef 5], true, none, false, false⟩],
   [], [], [], [], []⟩

/-- The state the cleanup pass turns `c7Model` into (for either value of
the `use_sat` flag): a single active `minimum_int` over `[x, y, z]`
targeting `t3`, both chain extensions and the carries `t1`, `t2`
deactivated. -/
def c7After : State :=
  ⟨[⟨⟨true, [0, 9]⟩, true, false, none⟩,
    ⟨⟨true, [0, 9]⟩, true, false, none⟩,
    ⟨⟨true, [0, 9]⟩, true, false, none⟩,
    ⟨⟨true, [0, 9]⟩, false, true, none⟩,
    ⟨⟨true, [0, 9]⟩, false, true, none⟩,
    ⟨⟨true, [0, 9]⟩, true, false, some 0⟩],
   [⟨"minimum_int", [Argument.IntVarRef 5, Argument.IntVarRefArray [0, 1, 2]],
     true, some 5, false, false⟩,
    ⟨"int_min", [Argument.IntVarRef 1, Argument.IntVarRef 3,
      Argument.IntVarRef 4], false, none, false, false⟩,
    ⟨"int_min", [Argument.IntVarRef 2, Argument.IntVarRef 4,
      Argument.IntVarRef 5], false, none, false, false⟩],
   [], [], [], [],
   [(0, [0]), (3, [0, 1]), (1, [1]), (4, [1, 2]), (2, [2]), (5, [2])]⟩

/-- The state `c4Model` reaches after the first sweep of the main loop;
the second sweep no longer changes it.  The affine element rule shifted
`i`'s interval from `[3,6]` down to `[1,4]`, rewrote the affine
constraint's right-hand side to `-1` and dropped the first two array
entries. -/
def c4After : State :=
  ⟨[⟨⟨true, [0, 3]⟩, true, false, none⟩,
    ⟨⟨true, [1, 4]⟩, true, false, some 0⟩,
    ⟨⟨false, [30, 40, 50, 60]⟩, true, false, none⟩],
   [⟨"int_lin_eq",
     [Argument.IntegerList [1, -1], Argument.IntVarRefArray [0, 1],
      Argument.IntegerValue (-1)], true, some 1, false, false⟩,
    ⟨"array_int_element",
     [Argument.IntVarRef 1, Argument.IntegerList [30, 40, 50, 60],
      Argument.IntVarRef 2], true, none, true, false⟩],
   [], [(1, ⟨0, 1, 1, 0⟩)], [], [],
   [(0, [0]), (1, [0, 1]), (2, [1])]⟩

/-- The state `c5Model` reaches after the first sweep of the main loop;
the second sweep no longer changes it.  The array was truncated to the
index's upper bound and `t`'s domain intersected with all remaining array
values. -/
def c5After : State :=
  ⟨[⟨⟨true, [2, 3]⟩, true, false, none⟩,
    ⟨⟨false, [10, 20, 30]⟩, true, false, none⟩],
   [⟨"array_int_element",
     [Argument.IntVarRef 0, Argument.IntegerList [10, 20, 30],
      Argument.IntVarRef 1], true, none, true, false⟩],
   [], [], [], [], [(0, [0]), (1, [0])]⟩

/-! ### Theorems

A few access lemmas about arena updates, then two lemmas settling the
fixed point of the main loop: once a sweep no longer changes the state the
loop's result is independent of the remaining fuel, so the run theorems
below hold for every sufficient fuel. -/

/-- Reading an updated list position. -/
theorem list_set_getD (l : List α) : ∀ (i j : Nat) (a d : α),
    (l.set i a).getD j d = if i = j ∧ i < l.length then a else l.getD j d := by
  induction l with
  | nil => intro i j a d; simp
  | cons x xs ih =>
      intro i j a d
      cases i with
      | zero =>
          cases j with
          | zero => simp
          | succ m => simp
      | succ n =>
          cases j with
          | zero => simp
          | succ m => simpa [Nat.succ_lt_succ_iff] using ih n m a d

/-- Reading a variable after `updateVar`. -/
theorem getVar_updateVar (st : State) (v w : Nat)
    (g : IntegerVariable → IntegerVariable) :
    (st.updateVar v g).getVar w =
      if v = w ∧ v < st.vars.length then g (st.getVar v) else st.getVar w := by
  simp only [State.updateVar, State.getVar]
  rw [list_set_getD]

/-- Reading a constraint after `updateCt`. -/
theorem getCt_updateCt (st : State) (c c' : Nat)
    (g : Constraint → Constraint) :
    (st.updateCt c g).getCt c' =
      if c = c' ∧ c < st.constraints.length then g (st.getCt c)
      else st.getCt c' := by
  simp only [State.updateCt, State.getCt]
  rw [list_set_getD]

/-- `updateCt` leaves the variable arena untouched. -/
theorem getVar_updateCt (st : State) (c : Nat) (g : Constraint → Constraint)
    (v : Nat) : (st.updateCt c g).getVar v = st.getVar v := rfl

/-- `updateVar` leaves the constraint list untouched. -/
theorem getCt_updateVar (st : State) (v : Nat)
    (g : IntegerVariable → IntegerVariable) (c : Nat) :
    (st.updateVar v g).getCt c = st.getCt c := rfl

/-- `updateVar` preserves the arena's size. -/
theorem vars_length_updateVar (st : State) (v : Nat)
    (g : IntegerVariable → IntegerVariable) :
    (st.updateVar v g).vars.length = st.vars.length := by
  simp [State.updateVar]

/-- If a sweep leaves the state unchanged (and records no substitution),
the main loop returns it whatever fuel remains. -/
theorem runLoop_stable (st : State) (f : Nat)
    (h : sweepConstraints { st with var_representative_map := [] } =
         ({ st with var_representative_map := [] }, false)) :
    runLoop (f + 1) st = { st with var_representative_map := [] } := by
  simp [runLoop, h]

/-- One step of the main loop under a sweep that changed the state but
recorded no substitution. -/
theorem runLoop_step (st st' : State) (f : Nat)
    (h : sweepConstraints { st with var_representative_map := [] } =
         (st', true))
    (h2 : st'.var_representative_map = []) :
    runLoop (f + 1) st = runLoop f st' := by
  simp [runLoop, h, h2]

/-- The run on `c4Model` reaches `c4After` after the first sweep and stays
there. -/
theorem c4_run_eval (f : Nat) : run (f + 2) c4Model = c4After := by
  have h1 : runLoop (f + 1 + 1) (prepRun c4Model) = runLoop (f + 1) c4After :=
    runLoop_step (prepRun c4Model) c4After (f + 1) (by decide) (by decide)
  have h2 : runLoop (f + 1) c4After =
      { c4After with var_representative_map := [] } :=
    runLoop_stable c4After f (by decide)
  show runLoop (f + 2) (prepRun c4Model) = c4After
  rw [show f + 2 = f + 1 + 1 from rfl, h1, h2]
  decide

/-- The run on `c5Model` reaches `c5After` after the first sweep and stays
there. -/
theorem c5_run_eval (f : Nat) : run (f + 2) c5Model = c5After := by
  have h1 : runLoop (f + 1 + 1) (prepRun c5Model) = runLoop (f + 1) c5After :=
    runLoop_step (prepRun c5Model) c5After (f + 1) (by decide) (by decide)
  have h2 : runLoop (f + 1) c5After =
      { c5After with var_representative_map := [] } :=
    runLoop_stable c5After f (by decide)
  show runLoop (f + 2) (prepRun c5Model) = c5After
  rw [show f + 2 = f + 1 + 1 from rfl, h1, h2]
  decide

/-- C1: `Run` is claimed solution-equivalent: every satisfying assignment
of the input restricts to one of the output and conversely through the
substitution chain.  On `c4Model` the affine element rule re-anchors the
retained, never-substituted index variable `i` from `i = j + 3` to
`i = j + 1`: the input-satisfying assignment `(j,i,t) = (0,3,30)` violates
the output model, the output-satisfying `(0,1,30)` violates the input
model, and the substitution map stays empty, so neither direction of the
claimed equivalence holds — the run removed a feasible solution. -/
theorem C1_run_removes_feasible_solution : ∀ f : Nat,
    assignSat c4Model [0, 3, 30] = true ∧
    assignSat (run (f + 2) c4Model) [0, 3, 30] = false ∧
    assignSat (run (f + 2) c4Model) [0, 1, 30] = true ∧
    assignSat c4Model [0, 1, 30] = false ∧
    (run (f + 2) c4Model).var_representative_map = [] := by
  intro f
  rw [c4_run_eval f]
  decide

/-- C4: domains are claimed monotone across a `Run`.  On `c4Model` the
affine element translation executes `values[0] -= offset; values[1] -=
offset` on the index variable's interval, moving `i`'s domain from `[3,6]`
to `[1,4]`: the final domain contains 1, which the initial domain does
not, so the final domain is not a subset of the initial one. -/
theorem C4_monotone_domains_violated : ∀ f : Nat,
    ((run (f + 2) c4Model).getVar 1).domain.Contains 1 = true ∧
    (c4Model.getVar 1).domain.Contains 1 = false ∧
    ((run (f + 2) c4Model).getVar 1).domain = ⟨true, [1, 4]⟩ ∧
    (c4Model.getVar 1).domain = ⟨true, [3, 6]⟩ := by
  intro f
  rw [c4_run_eval f]
  decide

/-- C3: `Unreify` is claimed to invert `set_in ↔ set_not_in` in both
directions when the fixed boolean is 0.  On `set_not_in_reif(x, {3,4}, 0)`
the source strips the two characters `in` and appends `not_in`, producing
the tag `set_not_not_in` instead of `set_in` (while the suffix and the
boolean argument are dropped as claimed). -/
theorem C3_unreify_set_not_in_bug :
    ((unreify c3Input 0).1.getCt 0).type = "set_not_not_in" ∧
    ((unreify c3Input 0).1.getCt 0).arguments =
      [Argument.IntVarRef 0, Argument.IntegerList [3, 4]] ∧
    (unreify c3Input 0).2 = true := by decide

/-- C5 counterexample: the claim says the element presolve intersects
`t`'s domain with exactly `{20, 30}`.  The run instead truncates the
array to the index's upper bound and intersects `t` with all remaining
values `{10, 20, 30}`: the final domain contains 10, so it is not
`{20, 30}` (the constraint does stay active). -/
theorem C5_element_domain_counterexample :
    ((run 2 c5Model).getVar 1).domain.Contains 10 = true ∧
    ((run 2 c5Model).getVar 1).domain ≠ ⟨false, [20, 30]⟩ ∧
    ((run 2 c5Model).getCt 0).active = true := by decide

/-- C5 (amended): on `array_int_element(i, [10,20,30,40], t)` with
`i ∈ [2,3]`, the run keeps the constraint active, truncates the array to
`[10,20,30]`, and intersects `t`'s domain with the value set
`{10, 20, 30}` — the index's lower bound does not filter the intersected
set. -/
theorem C5_element_truncate_and_intersect : ∀ f : Nat,
    run (f + 2) c5Model = c5After ∧
    ((run (f + 2) c5Model).getCt 0).active = true ∧
    ((run (f + 2) c5Model).getCt 0).type = "array_int_element" ∧
    ((run (f + 2) c5Model).getCt 0).argD 1 =
      Argument.IntegerList [10, 20, 30] ∧
    ((run (f + 2) c5Model).getVar 1).domain = ⟨false, [10, 20, 30]⟩ := by
  intro f
  rw [c5_run_eval f]
  exact ⟨rfl, by decide, by decide, by decide, by decide⟩

/-- C2 counterexample: the claim says `int_lin_eq([1,1,-1], [x,y,z], 0)`
makes the first-pass scan record `difference_map[z] = (x, y)`.  The scan
only matches the coefficient patterns `[1,-1,1]` and `[-1,1,-1]`, so on
this constraint the difference map stays empty. -/
theorem C2_difference_pattern_counterexample :
    (firstPassModelScan c2CexInput).difference_map = [] ∧
    mapFind (firstPassModelScan c2CexInput).difference_map 2 = none := by
  decide

/-- C7: the cleanup pass turns the chain `int_min(x,x,t1);
int_min(y,t1,t2); int_min(z,t2,t3)` into a single
`minimum_int` over `[x,y,z]` with output (and target) `t3`, deactivates
the two following chain constraints, and deactivates the intermediate
carries `t1` and `t2` — for either value of the `use_sat` flag. -/
theorem C7_min_chain_regroup :
    ((cleanUpModelForTheCpSolver c7Model false).getCt 0).type =
      "minimum_int" ∧
    ((cleanUpModelForTheCpSolver c7Model false).getCt 0).arguments =
      [Argument.IntVarRef 5, Argument.IntVarRefArray [0, 1, 2]] ∧
    ((cleanUpModelForTheCpSolver c7Model false).getCt 0).target_variable =
      some 5 ∧
    ((cleanUpModelForTheCpSolver c7Model false).getVar 5).defining_constraint
      = some 0 ∧
    ((cleanUpModelForTheCpSolver c7Model false).getCt 1).active = false ∧
    ((cleanUpModelForTheCpSolver c7Model false).getCt 2).active = false ∧
    ((cleanUpModelForTheCpSolver c7Model false).getVar 3).active = false ∧
    ((cleanUpModelForTheCpSolver c7Model false).getVar 4).active = false ∧
    ((cleanUpModelForTheCpSolver c7Model false).getVar 5).active = true ∧
    cleanUpModelForTheCpSolver c7Model false = c7After ∧
    cleanUpModelForTheCpSolver c7Model true = c7After := by
  decide

/-- C9: on `int_eq(c1, c2)` with two constant arguments, `PresolveIntEq`
returns false in both cases; when `c1 = c2` it only deactivates the
constraint (rule 5), and when `c1 ≠ c2` it changes nothing at all — in
particular it never rewrites the constraint to an unsatisfiable constant,
so the contradiction is left to the downstream solver. -/
theorem C9_int_eq_constant_pair (st : State) (c : Nat) (c1 c2 : Int)
    (htype : (st.getCt c).type = "int_eq")
    (harg : (st.getCt c).arguments =
      [Argument.IntegerValue c1, Argument.IntegerValue c2])
    (htv : (st.getCt c).target_variable = none) :
    (presolveIntEq st c).2 = false ∧
    (c1 = c2 → (presolveIntEq st c).1 =
      st.updateCt c (fun ct => { ct with active := false })) ∧
    (c1 ≠ c2 → (presolveIntEq st c).1 = st) := by
  have hmark : markAsInactive st c =
      st.updateCt c (fun ct => { ct with active := false }) := by
    simp [markAsInactive, removeTargetVariable, htv]
  by_cases hc : c1 = c2
  · simp [presolveIntEq, Constraint.argD, harg, Argument.IntegerValue,
      Argument.IsVariable, argHasOneValue, argValue, containsKey, mapFind,
      Argument.Var, hc, hmark]
  · simp [presolveIntEq, Constraint.argD, harg, Argument.IntegerValue,
      Argument.IsVariable, argHasOneValue, argValue, containsKey, mapFind,
      Argument.Var, hc]

/-- Witness for C9 at `int_eq(3, 3)` and `int_eq(3, 4)`. -/
theorem C9_witness :
    (presolveIntEq c9InputA 0).2 = false ∧
    (presolveIntEq c9InputA 0).1 =
      c9InputA.updateCt 0 (fun ct => { ct with active := false }) ∧
    (presolveIntEq c9InputB 0).2 = false ∧
    (presolveIntEq c9InputB 0).1 = c9InputB :=
  ⟨(C9_int_eq_constant_pair c9InputA 0 3 3 (by decide) (by decide)
      (by decide)).1,
   (C9_int_eq_constant_pair c9InputA 0 3 3 (by decide) (by decide)
      (by decide)).2.1 rfl,
   (C9_int_eq_constant_pair c9InputB 0 3 4 (by decide) (by decide)
      (by decide)).1,
   (C9_int_eq_constant_pair c9InputB 0 3 4 (by decide) (by decide)
      (by decide)).2.2 (by decide)⟩

/-- C10: `PresolveIntDiv` on a division whose second operand resolves to
0 takes no action at all: the guard's last conjunct fails, so the rule
returns false with the state — constraint activity, arguments, flags and
every variable domain — untouched, and no infeasibility is recorded. -/
theorem C10_int_div_zero_guard (st : State) (c : Nat)
    (h0 : argHasOneValue st ((st.getCt c).argD 0) = true)
    (h1 : argHasOneValue st ((st.getCt c).argD 1) = true)
    (h : argValue st ((st.getCt c).argD 1) = 0) :
    presolveIntDiv st c = (st, false) := by
  simp [presolveIntDiv, h]

/-- Witness for C10 at `int_div(6, 0, x)`. -/
theorem C10_witness : presolveIntDiv c10Input 0 = (c10Input, false) :=
  C10_int_div_zero_guard c10Input 0 (by decide) (by decide) (by decide)

/-- C8 counterexample: the claim says every `int_lin_gt(a, x, c)` is
rewritten to `int_lin_ge(a, x, c+1)`.  At `c = kint64max` the source
returns false and leaves the constraint unchanged. -/
theorem C8_sentinel_counterexample :
    presolveIntLinGt c8CexInput 0 = (c8CexInput, false) ∧
    ((presolveIntLinGt c8CexInput 0).1.getCt 0).type ≠ "int_lin_ge" := by
  decide

/-- C8 (amended): `int_lin_gt(a, x, c)` becomes `int_lin_ge(a, x, c+1)`
provided `c ≠ kint64max`, and `int_lin_lt(a, x, c)` becomes
`int_lin_le(a, x, c-1)` provided `c ≠ kint64min`; at the sentinel the rule
leaves the constraint unchanged. -/
theorem C8_intlin_gt_lt_canonicalization :
    (∀ (st : State) (c : Nat) (a0 a1 : Argument) (rhs : Int),
      (st.getCt c).type = "int_lin_gt" →
      (st.getCt c).arguments = [a0, a1, Argument.IntegerValue rhs] →
      rhs ≠ kint64max →
      presolveIntLinGt st c =
        (st.updateCt c (fun ct =>
          { ct with type := "int_lin_ge",
                    arguments := [a0, a1,
                      Argument.IntegerValue (rhs + 1)] }), true)) ∧
    (∀ (st : State) (c : Nat) (a0 a1 : Argument) (rhs : Int),
      (st.getCt c).type = "int_lin_lt" →
      (st.getCt c).arguments = [a0, a1, Argument.IntegerValue rhs] →
      rhs ≠ kint64min →
      presolveIntLinLt st c =
        (st.updateCt c (fun ct =>
          { ct with type := "int_lin_le",
                    arguments := [a0, a1,
                      Argument.IntegerValue (rhs - 1)] }), true)) := by
  constructor
  · intro st c a0 a1 rhs _ harg hmax
    simp [presolveIntLinGt, Constraint.argD, harg, argValue,
      Argument.IntegerValue, hmax, State.updateCt, Constraint.setArg]
  · intro st c a0 a1 rhs _ harg hmin
    simp [presolveIntLinLt, Constraint.argD, harg, argValue,
      Argument.IntegerValue, hmin, State.updateCt, Constraint.setArg]

/-- Witness for C8 at `int_lin_gt([1], [x], 7)` and
`int_lin_lt([1], [x], 7)`. -/
theorem C8_witness :
    presolveIntLinGt c8WitnessInput 0 =
      (c8WitnessInput.updateCt 0 (fun ct =>
        { ct with type := "int_lin_ge",
                  arguments := [Argument.IntegerList [1],
                    Argument.IntVarRefArray [0],
                    Argument.IntegerValue 8] }), true) ∧
    presolveIntLinLt c8WitnessInput 1 =
      (c8WitnessInput.updateCt 1 (fun ct =>
        { ct with type := "int_lin_le",
                  arguments := [Argument.IntegerList [1],
                    Argument.IntVarRefArray [0],
                    Argument.IntegerValue 6] }), true) :=
  ⟨C8_intlin_gt_lt_canonicalization.1 c8WitnessInput 0 _ _ 7 (by decide)
     (by decide) (by decide),
   C8_intlin_gt_lt_canonicalization.2 c8WitnessInput 1 _ _ 7 (by decide)
     (by decide) (by decide)⟩

/-- C2 (amended): on a model holding `int_lin_eq([1,-1,1], [x,y,z], 0)` —
the coefficient pattern the scan stores, in place of the claim's
`[1,1,-1]` — followed by `int_eq(z, 0)`, the first-pass scan records
`difference_map[z] = (x, y)` (and `difference_map[x] = (z, y)`), and the
`int_eq` rule then rewrites `int_eq(z, 0)` into the still-active
`int_eq(x, y)`. -/
theorem C2_difference_scan_rewrites_int_eq (st : State) (x y z : Nat)
    (hcts : st.constraints =
      [⟨"int_lin_eq",
        [Argument.IntegerList [1, -1, 1], Argument.IntVarRefArray [x, y, z],
         Argument.IntegerValue 0], true, none, false, false⟩,
       ⟨"int_eq", [Argument.IntVarRef z, Argument.IntegerValue 0],
        true, none, false, false⟩])
    (hdm : st.difference_map = [])
    (hxz : x ≠ z) :
    mapFind (firstPassModelScan st).difference_map z = some (x, y) ∧
    (presolveIntEq (firstPassModelScan st) 1).2 = true ∧
    ((presolveIntEq (firstPassModelScan st) 1).1.getCt 1) =
      ⟨"int_eq", [Argument.IntVarRef x, Argument.IntVarRef y],
       true, none, false, false⟩ := by
  have hscan : firstPassModelScan st =
      { st with difference_map := [(x, (z, y)), (z, (x, y))] } := by
    have hr : List.range st.constraints.length = [0, 1] := by
      rw [hcts]; rfl
    simp only [firstPassModelScan, hr, List.foldl]
    simp [State.getCt, hcts, storeDifference, Constraint.argD, argValue,
      Argument.IntegerValue, Argument.IntegerList, Argument.IntVarRefArray,
      Argument.IntVarRef, hdm, mapInsert, hxz]
  refine ⟨?_, ?_, ?_⟩
  · rw [hscan]
    simp [mapFind, hxz]
  · rw [hscan]
    simp [presolveIntEq, State.getCt, hcts, Constraint.argD,
      Argument.IntVarRef, Argument.IntegerValue, argValue, Argument.Var,
      containsKey, mapFind, hxz]
  · rw [hscan]
    simp [presolveIntEq, State.getCt, State.updateCt, State.updateVar,
      State.getVar, hcts, Constraint.argD, Constraint.setArg,
      Argument.IntVarRef, Argument.IntegerValue, argValue, Argument.Var,
      containsKey, mapFind, hxz]

/-- `RemoveTargetVariable` changes a variable's `defining_constraint` at
most. -/
theorem removeTargetVariable_getVar (st : State) (c v : Nat) :
    ((removeTargetVariable st c).getVar v) = st.getVar v ∨
    ((removeTargetVariable st c).getVar v) =
      { st.getVar v with defining_constraint := none } := by
  unfold removeTargetVariable
  cases htv : (st.getCt c).target_variable with
  | none => exact Or.inl rfl
  | some w =>
      rw [getVar_updateCt, getVar_updateVar]
      split
      · next h => exact Or.inr (by rw [h.1])
      · exact Or.inl rfl

/-- `RemoveTargetVariable` preserves the arena's size. -/
theorem removeTargetVariable_vars_length (st : State) (c : Nat) :
    (removeTargetVariable st c).vars.length = st.vars.length := by
  unfold removeTargetVariable
  cases (st.getCt c).target_variable with
  | none => rfl
  | some w => simp [State.updateCt, vars_length_updateVar]

/-- `RemoveTargetVariable` preserves the substitution map. -/
theorem removeTargetVariable_rep_map (st : State) (c : Nat) :
    (removeTargetVariable st c).var_representative_map =
      st.var_representative_map := by
  unfold removeTargetVariable
  cases (st.getCt c).target_variable with
  | none => rfl
  | some w => rfl

/-- After `RemoveTargetVariable` an in-range constraint has no target. -/
theorem removeTargetVariable_target_none (st : State) (c : Nat)
    (h : c < st.constraints.length) :
    ((removeTargetVariable st c).getCt c).target_variable = none := by
  unfold removeTargetVariable
  cases htv : (st.getCt c).target_variable with
  | none => exact htv
  | some w =>
      rw [getCt_updateCt]
      simp [State.updateVar, h]

/-- C6: `AddVariableSubstition` with both arguments already their own
representatives (`var_representative_map` empty).  Writing `f` and `t` for
the pair after the temporary swap: when exactly one of the two variables
is temporary, `f` (the eliminated side) is the temporary one and `t` (the
survivor) is not; `f` is deactivated and mapped to `t`; `t`'s domain is
intersected with `f`'s; when `t` had no defining constraint it absorbs
`f`'s; and when both sides had defining constraints, `f`'s defining
constraint loses its target. -/
theorem C6_add_variable_substitution (st : State) (from0 to0 f t : Nat)
    (hrep : st.var_representative_map = [])
    (hf : from0 < st.vars.length) (ht : to0 < st.vars.length)
    (hne : from0 ≠ to0)
    (hfd : f = if (st.getVar to0).temporary then to0 else from0)
    (htd : t = if (st.getVar to0).temporary then from0 else to0) :
    ((st.getVar from0).temporary ≠ (st.getVar to0).temporary →
      (st.getVar f).temporary = true ∧ (st.getVar t).temporary = false) ∧
    ((addVariableSubstition st from0 to0).getVar f).active = false ∧
    mapFind (addVariableSubstition st from0 to0).var_representative_map f =
      some t ∧
    ((addVariableSubstition st from0 to0).getVar t).domain =
      (st.getVar t).domain.IntersectWithDomain (st.getVar f).domain ∧
    ((st.getVar t).defining_constraint = none →
      ((addVariableSubstition st from0 to0).getVar t).defining_constraint =
        (st.getVar f).defining_constraint) ∧
    (∀ dcf : Nat, (st.getVar f).defining_constraint = some dcf →
      (st.getVar t).defining_constraint ≠ none →
      (st.getCt dcf).target_variable = some f →
      dcf < st.constraints.length →
      ((addVariableSubstition st from0 to0).getCt dcf).target_variable =
        none) := by
  have hst : { st with var_representative_map := ([] : List (Nat × Nat)) } =
      st := by rw [← hrep]
  have hfind : ∀ v, findRepresentativeOfVar st v = (st, v) := by
    intro v
    simp [findRepresentativeOfVar, hrep, findRepTop, compressPath, mapFind,
      hst]
  have hft : f ≠ t := by
    by_cases hsw : (st.getVar to0).temporary <;>
      simp [hfd, htd, hsw] <;> omega
  have hfl : f < st.vars.length := by
    by_cases hsw : (st.getVar to0).temporary <;> simp [hfd, hsw] <;>
      first
      | exact ht
      | exact hf
  have htl : t < st.vars.length := by
    by_cases hsw : (st.getVar to0).temporary <;> simp [htd, hsw] <;>
      first
      | exact ht
      | exact hf
  have hne' : to0 ≠ from0 := Ne.symm hne
  have hA : addVariableSubstition st from0 to0 =
      { addSubMerged st f t with
          var_representative_map :=
            mapInsert (addSubMerged st f t).var_representative_map f t } := by
    by_cases hsw : (st.getVar to0).temporary
    · have hf2 : f = to0 := by rw [hfd, if_pos hsw]
      have ht2 : t = from0 := by rw [htd, if_pos hsw]
      subst hf2; subst ht2
      simp [addVariableSubstition, hfind, hsw, hne']
    · have hf2 : f = from0 := by rw [hfd, if_neg hsw]
      have ht2 : t = to0 := by rw [htd, if_neg hsw]
      subst hf2; subst ht2
      simp [addVariableSubstition, hfind, hsw, hne]
  -- Facts about the target-breaking step.
  have hb_var : ∀ v, ((addSubBreak st f t).getVar v) = st.getVar v ∨
      ((addSubBreak st f t).getVar v) =
        { st.getVar v with defining_constraint := none } := by
    intro v
    unfold addSubBreak
    by_cases hg : ((st.getVar f).defining_constraint.isSome &&
        (st.getVar t).defining_constraint.isSome) = true
    · rw [if_pos hg]
      cases hdf : (st.getVar f).defining_constraint with
      | none => exact Or.inl rfl
      | some dc => exact removeTargetVariable_getVar st dc v
    · rw [if_neg hg]; exact Or.inl rfl
  have hb_len : (addSubBreak st f t).vars.length = st.vars.length := by
    unfold addSubBreak
    by_cases hg : ((st.getVar f).defining_constraint.isSome &&
        (st.getVar t).defining_constraint.isSome) = true
    · rw [if_pos hg]
      cases hdf : (st.getVar f).defining_constraint with
      | none => rfl
      | some dc => exact removeTargetVariable_vars_length st dc
    · rw [if_neg hg]
  have hb_map : (addSubBreak st f t).var_representative_map =
      st.var_representative_map := by
    unfold addSubBreak
    by_cases hg : ((st.getVar f).defining_constraint.isSome &&
        (st.getVar t).defining_constraint.isSome) = true
    · rw [if_pos hg]
      cases hdf : (st.getVar f).defining_constraint with
      | none => rfl
      | some dc => exact removeTargetVariable_rep_map st dc
    · rw [if_neg hg]
  refine ⟨?_, ?_, ?_, ?_, ?_, ?_⟩
  -- (1) the temporary side is eliminated.
  · intro hexa
    by_cases hsw : (st.getVar to0).temporary <;>
      rw [hfd, htd] <;> simp [hsw] at hexa ⊢ <;> simp_all
  -- (2) `from` is deactivated.
  · rw [hA]
    show ((addSubMerged st f t).getVar f).active = false
    unfold addSubMerged
    rw [getVar_updateVar, if_pos ⟨rfl, by
      rw [mergeVar, vars_length_updateVar, hb_len]; exact hfl⟩]
  -- (3) `representative[from] = to`.
  · rw [hA]
    show mapFind (mapInsert (addSubMerged st f t).var_representative_map f t)
      f = some t
    have : (addSubMerged st f t).var_representative_map = [] := by
      unfold addSubMerged mergeVar
      simp [State.updateVar, hb_map, hrep]
    rw [this]
    simp [mapInsert, mapFind]
  -- (4) `to` absorbs the domain by intersection.
  · rw [hA]
    show ((addSubMerged st f t).getVar t).domain =
      (st.getVar t).domain.IntersectWithDomain (st.getVar f).domain
    unfold addSubMerged
    rw [getVar_updateVar, if_neg (by
      intro h
      exact hft h.1)]
    unfold mergeVar
    rw [getVar_updateVar, if_pos ⟨rfl, by rw [hb_len]; exact htl⟩]
    rcases hb_var t with hbt | hbt <;> rcases hb_var f with hbf | hbf <;>
      rw [hbt, hbf]
  -- (5) `to` absorbs the defining constraint if it had none.
  · intro htnone
    rw [hA]
    show ((addSubMerged st f t).getVar t).defining_constraint =
      (st.getVar f).defining_constraint
    have hB : addSubBreak st f t = st := by
      unfold addSubBreak
      rw [htnone]
      simp
    unfold addSubMerged
    rw [hB, getVar_updateVar, if_neg (by
      intro h
      exact hft h.1)]
    unfold mergeVar
    rw [getVar_updateVar, if_pos ⟨rfl, htl⟩, htnone]
  -- (6) with two defining constraints, `from`'s loses its target.
  · intro dcf hdf htsome htgt hdcf
    rw [hA]
    show ((addSubMerged st f t).getCt dcf).target_variable = none
    have hB : addSubBreak st f t = removeTargetVariable st dcf := by
      unfold addSubBreak
      rw [if_pos (by
        rw [hdf]
        simp [Option.isSome]
        cases hx : (st.getVar t).defining_constraint with
        | none => exact absurd hx htsome
        | some d => simp), hdf]
    unfold addSubMerged mergeVar
    rw [getCt_updateVar, getCt_updateVar, hB]
    exact removeTargetVariable_target_none st dcf hdcf

/-- Witness for C6 on two variables, the first temporary with a defining
constraint, the second not temporary with its own defining constraint. -/
theorem C6_witness :
    ((c6Input.getVar 0).temporary = true ∧
     (c6Input.getVar 1).temporary = false) ∧
    ((addVariableSubstition c6Input 0 1).getVar 0).active = false ∧
    mapFind (addVariableSubstition c6Input 0 1).var_representative_map 0 =
      some 1 ∧
    ((addVariableSubstition c6Input 0 1).getVar 1).domain =
      (c6Input.getVar 1).domain.IntersectWithDomain
        (c6Input.getVar 0).domain ∧
    ((addVariableSubstition c6Input 0 1).getCt 0).target_variable = none :=
  have h := C6_add_variable_substitution c6Input 0 1 0 1 rfl (by decide)
    (by decide) (by decide) (by decide) (by decide)
  ⟨h.1 (by decide), h.2.1, h.2.2.1, h.2.2.2.1,
   h.2.2.2.2.2 0 (by decide) (by decide) (by decide) (by decide)⟩

/-- Witness for C2 on the three variables 0, 1, 2. -/
theorem C2_witness :
    mapFind (firstPassModelScan c2WitnessInput).difference_map 2 =
      some (0, 1) ∧
    (presolveIntEq (firstPassModelScan c2WitnessInput) 1).2 = true ∧
    ((presolveIntEq (firstPassModelScan c2WitnessInput) 1).1.getCt 1) =
      ⟨"int_eq", [Argument.IntVarRef 0, Argument.IntVarRef 1],
       true, none, false, false⟩ :=
  C2_difference_scan_rewrites_int_eq c2WitnessInput 0 1 2 (by decide)
    (by decide) (by decide)

end FzPresolve
